import Mathlib

/-!
Verification development for the codex-openai-wrapper gateway.

Shallow embedding of the reasoning-mode packing (src/reasoning.ts), usage
normalization (src/usage.ts), the streaming SSE translator (src/sse.ts,
sseTranslateChat), the chat-completions route's compat resolution, message
defaulting and non-streaming aggregation (routes/openai.ts variants), the
session fingerprint cache (src/types.ts session segment), and the upstream
request orchestrator (src/upstream.ts).

Modelling conventions:
- JS strings are Lean `String`; a JSON field that is either absent or a
  string is `Option String` (non-string JSON values in such fields are out
  of the model and noted where they occur).
- JS `a || b` on strings treats `""` as falsy; this is `orFalsy` below.
- Byte-level SSE buffering is abstracted: each upstream read yields the list
  of complete `data:`-lines it completes, already classified (`SseLine`).
- Emitted SSE frames are structured values (`Frame`); `Frame.done` stands
  for the literal bytes of the terminal frame `data: [DONE]` plus the two
  newlines, and `Frame.chunk c` for `data: <json of c>` plus two newlines.
-/

namespace Codex

/-- JavaScript `a || b` for an optional string: `none` and `""` are falsy. -/
def orFalsy (a : Option String) (b : String) : String :=
  match a with
  | some s => if s = "" then b else s
  | none => b

/-- JavaScript `toLowerCase()` as used by this code base (character-wise
lowercasing; all compared strings are ASCII). Defined over the character
list so that concrete evaluations reduce in the kernel. -/
def lowerStr (s : String) : String := ⟨s.data.map Char.toLower⟩

/-- Whitespace stripped by `trim()` (the ASCII whitespace characters; the
strings this code trims contain no exotic Unicode whitespace). -/
def isTrimSpace (c : Char) : Bool := c = ' ' ∨ c = '\t' ∨ c = '\n' ∨ c = '\r'

/-- JavaScript `trim()`: strip leading and trailing whitespace. -/
def trimStr (s : String) : String :=
  ⟨((s.data.dropWhile isTrimSpace).reverse.dropWhile isTrimSpace).reverse⟩

/-- JavaScript `endsWith(pat)`, over the character lists. -/
def endsWithStr (s pat : String) : Bool := pat.data.isSuffixOf s.data

/-- Lexicographic order on character lists by code point (the comparison
JavaScript's default Array.sort applies to these ASCII key names). -/
def charsLt : List Char → List Char → Bool
  | [], [] => false
  | [], _ :: _ => true
  | _ :: _, [] => false
  | a :: as, b :: bs =>
    if a.toNat < b.toNat then true
    else if b.toNat < a.toNat then false
    else charsLt as bs

/-- The `a ≤ b` string comparison used to sort the fingerprint keys. -/
def strLeJs (a b : String) : Bool := ¬ charsLt b.data a.data

/-- Part of a structured reasoning field `{content: [{type, text}]}`. -/
structure RPart where
  type : String
  text : String
deriving DecidableEq, Repr

/-- The `reasoning` field of a chat message: plain string or structured. -/
inductive ReasoningField where
  | str (s : String)
  | structured (parts : List RPart)
deriving DecidableEq, Repr

/-- A tool call entry pushed by the non-streaming aggregator
(`{id, type: "function", function: {name, arguments}}`; the `type` is the
constant "function"). -/
structure AggToolCall where
  id : String
  name : String
  arguments : String
deriving DecidableEq, Repr

/-- The final assistant message shape handled by `applyReasoningToMessage`
(src/reasoning.ts, interface ChatMessage). `content` is string-or-null. -/
structure RMessage where
  role : String
  content : Option String
  tool_calls : List AggToolCall := []
  reasoning : Option ReasoningField := none
  reasoning_summary : Option String := none
  reasoning_content : Option String := none
deriving DecidableEq, Repr

/-- Helper shared by several branches of `applyReasoningToMessage`
(src/reasoning.ts lines 72-79, 88-95, 115-122): collect the non-blank
summary and full texts and join with a blank line. -/
def joinedReasoningText (reasoningSummaryText reasoningFullText : String) : String :=
  let rtxtParts :=
    (if trimStr reasoningSummaryText ≠ "" then [reasoningSummaryText] else []) ++
    (if trimStr reasoningFullText ≠ "" then [reasoningFullText] else [])
  String.intercalate "\n\n" (rtxtParts.filter (fun p => p ≠ ""))

/-- Embeds `applyReasoningToMessage` from src/reasoning.ts (lines 51-129).
Branches, in source order: "hide" returns the message unchanged; "o3" packs
a structured `reasoning`; "r1" packs `reasoning_content`; "legacy",
"current" and "standard" pack plain-string `reasoning_summary`/`reasoning`;
everything else (including "hidden") falls to the think-tags default that
prepends `<think>...</think>` to the content. -/
def applyReasoningToMessage (message : RMessage)
    (reasoningSummaryText reasoningFullText : String) (compat : String) : RMessage :=
  let compat := lowerStr (trimStr (if compat = "" then "think-tags" else compat))
  if compat = "hide" then
    message
  else if compat = "o3" then
    let rtxt := joinedReasoningText reasoningSummaryText reasoningFullText
    if rtxt ≠ "" then
      { message with reasoning := some (.structured [⟨"text", rtxt⟩]) }
    else message
  else if compat = "r1" then
    let rtxt := joinedReasoningText reasoningSummaryText reasoningFullText
    if rtxt ≠ "" then { message with reasoning_content := some rtxt } else message
  else if compat = "legacy" ∨ compat = "current" ∨ compat = "standard" then
    let message :=
      if reasoningSummaryText ≠ "" then
        { message with reasoning_summary := some reasoningSummaryText }
      else message
    if reasoningFullText ≠ "" then
      { message with reasoning := some (.str reasoningFullText) }
    else message
  else
    let rtxt := joinedReasoningText reasoningSummaryText reasoningFullText
    if rtxt ≠ "" then
      { message with
          content := some ("<think>" ++ rtxt ++ "</think>" ++ message.content.getD "") }
    else message

/-- Modelled from the spec: `normalizeCompatMode` is imported by src/sse.ts
from src/reasoning.ts but its definition is not present under src/ (only its
callers and tests are). Per spec section 4.1 the resolver trims and
lowercases, maps "hide" to "hidden", keeps members of
tagged/openai/o3/r1/hidden, and resolves anything else to "tagged". -/
def normalizeCompatMode (raw : String) : String :=
  let s := lowerStr (trimStr raw)
  if s = "hide" then "hidden"
  else if s = "tagged" ∨ s = "openai" ∨ s = "o3" ∨ s = "r1" ∨ s = "hidden" then s
  else "tagged"

/-- Normalized usage shape from src/usage.ts (NormalizedUsage). -/
structure NormalizedUsage where
  prompt_tokens : Int
  completion_tokens : Int
  total_tokens : Int
  cache_creation_input_tokens : Option Int := none
  cache_read_input_tokens : Option Int := none
deriving DecidableEq, Repr

/-- Raw upstream usage payload; each field is present-and-numeric or absent
(non-numeric JSON values behave as absent, matching the `typeof` guards). -/
structure RawUsage where
  prompt_tokens : Option Int := none
  completion_tokens : Option Int := none
  input_tokens : Option Int := none
  output_tokens : Option Int := none
  total_tokens : Option Int := none
  cache_creation_input_tokens : Option Int := none
  cache_read_input_tokens : Option Int := none
deriving DecidableEq, Repr

/-- Embeds `numberOrZero` from src/usage.ts (lines 52-56). -/
def numberOrZero (primary fallback : Option Int) : Int :=
  match primary with
  | some n => n
  | none =>
    match fallback with
    | some n => n
    | none => 0

/-- Embeds `normalizeUsage` from src/usage.ts (lines 16-50); `none` input
stands for the absent/non-object case. The same arithmetic
(`prompt_tokens ?? input_tokens ?? 0`, explicit `total_tokens` winning over
the sum) is inlined in src/sse.ts lines 384-402 for the streaming usage
chunk, so this definition is reused there. -/
def normalizeUsage (raw : Option RawUsage) : Option NormalizedUsage :=
  match raw with
  | none => none
  | some r =>
    let pt := numberOrZero r.prompt_tokens r.input_tokens
    let ct := numberOrZero r.completion_tokens r.output_tokens
    let tt := match r.total_tokens with | some t => t | none => pt + ct
    some { prompt_tokens := pt, completion_tokens := ct, total_tokens := tt,
           cache_creation_input_tokens := r.cache_creation_input_tokens,
           cache_read_input_tokens := r.cache_read_input_tokens }

/-- Tool-call descriptor carried by `response.output_item.done` events
(src/sse.ts SseEvent.item). String fields are present-string or absent. -/
structure SseItem where
  type : String
  call_id : Option String := none
  id : Option String := none
  name : Option String := none
  arguments : Option String := none
deriving DecidableEq, Repr

/-- A parsed upstream SSE event (src/sse.ts interface SseEvent).
`response_id` is `evt.response.id` when present and a string;
`response_usage` is `evt.response.usage`; `usage` the root-level one;
`response_error_message` is `evt.response.error.message`. -/
structure SseEvent where
  type : String
  response_id : Option String := none
  delta : Option String := none
  item : Option SseItem := none
  usage : Option RawUsage := none
  response_usage : Option RawUsage := none
  response_error_message : Option String := none
deriving DecidableEq, Repr

/-- One complete line delivered by an upstream read, already classified the
way the per-line code does: not starting with "data: "; data payload that
trims to empty; the literal `[DONE]` sentinel; a payload JSON.parse rejects;
or a parsed event. -/
inductive SseLine where
  | notData (s : String)
  | blank
  | doneSentinel
  | malformed
  | event (e : SseEvent)
deriving DecidableEq, Repr

/-- Delta payload of an emitted chat-completion chunk (src/sse.ts):
`{role}`, `{content}`, `{tool_calls:[...]}` (tool-call index is always 0),
`{reasoning_content}`, `{reasoning:{content:[...]}}` (o3 shape),
`{reasoning_summary}` and plain `{reasoning}` (default-branch shapes), or
the empty object. -/
inductive ChunkDelta where
  | role (r : String)
  | content (s : String)
  | toolCalls (callId : String) (name : String) (arguments : String)
  | reasoningContent (s : String)
  | reasoningStructured (parts : List RPart)
  | reasoningSummary (s : String)
  | reasoningPlain (s : String)
  | empty
deriving DecidableEq, Repr

/-- An emitted chat-completion chunk; the constant `object` discriminator
"chat.completion.chunk" and `choices[0].index = 0` are implicit. -/
structure OutChunk where
  id : String
  created : Nat
  model : String
  delta : ChunkDelta
  finish_reason : Option String := none
  usage : Option NormalizedUsage := none
deriving DecidableEq, Repr

/-- An emitted SSE frame: `chunk c` is `data: <json of c>` plus two
newlines, `errorFrame m` the bare `data: {"error":{"message":m}}` frame
emitted on `response.failed`, and `done` the literal terminal bytes
`data: [DONE]` plus two newlines. -/
inductive Frame where
  | chunk (c : OutChunk)
  | errorFrame (message : String)
  | done
deriving DecidableEq, Repr

/-- Per-stream translator state of `sseTranslateChat` (src/sse.ts lines
42-46 and 62). -/
structure ChatState where
  responseId : String := "chatcmpl-stream"
  thinkOpen : Bool := false
  thinkClosed : Bool := false
  sawAnySummary : Bool := false
  pendingSummaryParagraph : Bool := false
  sentRole : Bool := false
deriving DecidableEq, Repr

/-- Fixed per-stream configuration of `sseTranslateChat`: model id, the
`created` timestamp sampled once, and the already-normalized compat mode. -/
structure ChatCfg where
  model : String
  created : Nat
  compat : String
deriving DecidableEq, Repr

/-- Builds a chunk with the current response id and stream constants. -/
def mkChunk (cfg : ChatCfg) (st : ChatState) (delta : ChunkDelta)
    (fin : Option String) : OutChunk :=
  { id := st.responseId, created := cfg.created, model := cfg.model,
    delta := delta, finish_reason := fin }

/-- Embeds the `ensureRole` closure (src/sse.ts lines 64-75): emit one
`{delta:{role:"assistant"}}` chunk, guarded by the sentRole flag. -/
def ensureRole (cfg : ChatCfg) (st : ChatState) : ChatState × List Frame :=
  if st.sentRole then (st, [])
  else ({ st with sentRole := true },
        [Frame.chunk (mkChunk cfg st (.role "assistant") none)])

/-- The four reasoning-delta event types (src/sse.ts lines 191-196). -/
def isReasoningKind (kind : String) : Bool :=
  kind = "response.reasoning_summary_text.delta" ∨
  kind = "response.reasoning_text.delta" ∨
  kind = "response.reasoning_summary.delta" ∨
  kind = "response.reasoning.delta"

/-- The two summary-delta event types checked for the pending paragraph
separator (src/sse.ts lines 219, 255, 302). -/
def isSummaryDeltaKind (kind : String) : Bool :=
  kind = "response.reasoning_summary_text.delta" ∨
  kind = "response.reasoning_summary.delta"

/-- The sticky response-id update performed for every event that carries a
string `response.id` (src/sse.ts lines 114-116); an empty id keeps the
previous one (`evt.response.id || responseId`). -/
def updateResponseId (st : ChatState) (evt : SseEvent) : ChatState :=
  match evt.response_id with
  | some s => { st with responseId := if s = "" then st.responseId else s }
  | none => st

/-- The `response.output_text.delta` branch (src/sse.ts lines 118-140):
role priming, the tagged-mode close-think transition, then the content
delta itself. -/
def handleTextDelta (cfg : ChatCfg) (st : ChatState) (evt : SseEvent) :
    ChatState × List Frame × Bool :=
  let r := ensureRole cfg st
  let delta := evt.delta.getD ""
  let c :=
    if cfg.compat = "tagged" ∧ r.1.thinkOpen ∧ ¬ r.1.thinkClosed then
      ({ r.1 with thinkOpen := false, thinkClosed := true },
       [Frame.chunk (mkChunk cfg r.1 (.content "</think>") none)])
    else (r.1, [])
  (c.1, r.2 ++ c.2 ++ [Frame.chunk (mkChunk cfg c.1 (.content delta) none)], false)

/-- The `response.output_item.done` branch (src/sse.ts lines 141-182):
emit the tool-call chunk and its `finish_reason:"tool_calls"` companion for
a function_call item. -/
def handleOutputItemDone (cfg : ChatCfg) (st : ChatState) (evt : SseEvent) :
    ChatState × List Frame × Bool :=
  let r := ensureRole cfg st
  let toolFrames :=
    match evt.item with
    | some item =>
      if item.type = "function_call" then
        let callId := orFalsy item.call_id (orFalsy item.id "")
        let name := orFalsy item.name ""
        let args := orFalsy item.arguments ""
        [Frame.chunk (mkChunk cfg r.1 (.toolCalls callId name args) none),
         Frame.chunk (mkChunk cfg r.1 .empty (some "tool_calls"))]
      else []
    | none => []
  (r.1, r.2 ++ toolFrames, false)

/-- The `response.reasoning_summary_part.added` branch (src/sse.ts lines
183-190): flag bookkeeping only, no output. -/
def handleSummaryPartAdded (cfg : ChatCfg) (st : ChatState) :
    ChatState × List Frame × Bool :=
  if cfg.compat = "tagged" ∨ cfg.compat = "o3" ∨ cfg.compat = "openai" then
    if st.sawAnySummary then ({ st with pendingSummaryParagraph := true }, [], false)
    else ({ st with sawAnySummary := true }, [], false)
  else (st, [], false)

/-- The reasoning-delta branch (src/sse.ts lines 191-351), dispatching on
the normalized compat mode exactly as the source's inner chain does. -/
def handleReasoningDelta (cfg : ChatCfg) (st : ChatState) (evt : SseEvent) :
    ChatState × List Frame × Bool :=
  let r := ensureRole cfg st
  let kind := evt.type
  let deltaTxt := evt.delta.getD ""
  if cfg.compat = "hidden" then
    (r.1, r.2, false)
  else if cfg.compat = "r1" then
    (r.1, r.2 ++ [Frame.chunk (mkChunk cfg r.1 (.reasoningContent deltaTxt) none)], false)
  else if cfg.compat = "o3" then
    let nl :=
      if isSummaryDeltaKind kind ∧ r.1.pendingSummaryParagraph then
        ({ r.1 with pendingSummaryParagraph := false },
         [Frame.chunk (mkChunk cfg r.1 (.reasoningStructured [⟨"text", "\n"⟩]) none)])
      else (r.1, [])
    (nl.1,
     r.2 ++ nl.2 ++
       [Frame.chunk (mkChunk cfg nl.1 (.reasoningStructured [⟨"text", deltaTxt⟩]) none)],
     false)
  else if cfg.compat = "openai" then
    let nl :=
      if isSummaryDeltaKind kind ∧ r.1.pendingSummaryParagraph then
        ({ r.1 with pendingSummaryParagraph := false },
         [Frame.chunk (mkChunk cfg r.1 (.reasoningContent "\n") none)])
      else (r.1, [])
    (nl.1, r.2 ++ nl.2 ++
       [Frame.chunk (mkChunk cfg nl.1 (.reasoningContent deltaTxt) none)], false)
  else if cfg.compat = "tagged" then
    let o :=
      if ¬ r.1.thinkOpen ∧ ¬ r.1.thinkClosed then
        ({ r.1 with thinkOpen := true },
         [Frame.chunk (mkChunk cfg r.1 (.content "<think>") none)])
      else (r.1, [])
    if o.1.thinkOpen ∧ ¬ o.1.thinkClosed then
      let nl :=
        if isSummaryDeltaKind kind ∧ o.1.pendingSummaryParagraph then
          ({ o.1 with pendingSummaryParagraph := false },
           [Frame.chunk (mkChunk cfg o.1 (.content "\n") none)])
        else (o.1, [])
      (nl.1, r.2 ++ o.2 ++ nl.2 ++
         [Frame.chunk (mkChunk cfg nl.1 (.content deltaTxt) none)], false)
    else (o.1, r.2 ++ o.2, false)
  else
    if kind = "response.reasoning_summary_text.delta" then
      (r.1, r.2 ++ [Frame.chunk (mkChunk cfg r.1 (.reasoningSummary deltaTxt) none)], false)
    else
      (r.1, r.2 ++ [Frame.chunk (mkChunk cfg r.1 (.reasoningPlain deltaTxt) none)], false)

/-- The `response.failed` branch (src/sse.ts lines 363-366): one bare
error frame, not terminal. -/
def handleFailed (st : ChatState) (evt : SseEvent) :
    ChatState × List Frame × Bool :=
  let msg :=
    match evt.response_error_message with
    | some m => if m = "" then "response.failed" else m
    | none => "response.failed"
  (st, [Frame.errorFrame msg], false)

/-- The `response.completed` branch (src/sse.ts lines 367-408): close the
think block if still open, emit the usage chunk when usage is attached,
then the `[DONE]` frame, and break. -/
def handleCompleted (cfg : ChatCfg) (st : ChatState) (evt : SseEvent) :
    ChatState × List Frame × Bool :=
  let c :=
    if cfg.compat = "tagged" ∧ st.thinkOpen ∧ ¬ st.thinkClosed then
      ({ st with thinkOpen := false, thinkClosed := true },
       [Frame.chunk (mkChunk cfg st (.content "</think>") none)])
    else (st, [])
  let rawUsage := match evt.response_usage with | some u => some u | none => evt.usage
  let usageFrames :=
    match normalizeUsage rawUsage with
    | some nu => [Frame.chunk { mkChunk cfg c.1 .empty none with usage := some nu }]
    | none => []
  (c.1, c.2 ++ usageFrames ++ [Frame.done], true)

/-- Embeds the per-event branch chain of `sseTranslateChat` (src/sse.ts
lines 113-409), in source order. Returns the new state, the frames
enqueued for this event, and whether the per-line loop `break`s
(only `response.completed` does). Note the `*.done` catch-all (line 352)
precedes the `response.output_text.done` branch (line 354), exactly as in
the source, which makes that branch unreachable. -/
def processEvent (cfg : ChatCfg) (st : ChatState) (evt : SseEvent) :
    ChatState × List Frame × Bool :=
  let st := updateResponseId st evt
  let kind := evt.type
  if kind = "response.output_text.delta" then handleTextDelta cfg st evt
  else if kind = "response.output_item.done" then handleOutputItemDone cfg st evt
  else if kind = "response.reasoning_summary_part.added" then handleSummaryPartAdded cfg st
  else if isReasoningKind kind then handleReasoningDelta cfg st evt
  else if endsWithStr kind ".done" then
    (st, [], false)
  else if kind = "response.output_text.done" then
    (st, [Frame.chunk (mkChunk cfg st .empty (some "stop"))], false)
  else if kind = "response.failed" then handleFailed st evt
  else if kind = "response.completed" then handleCompleted cfg st evt
  else
    (st, [], false)

/-- Embeds the per-line dispatch of `sseTranslateChat` (src/sse.ts lines
89-111): skip non-data lines and blank payloads, forward the literal
`[DONE]` sentinel and break, skip unparseable payloads, process events. -/
def processLine (cfg : ChatCfg) (st : ChatState) (l : SseLine) :
    ChatState × List Frame × Bool :=
  match l with
  | .notData _ => (st, [], false)
  | .blank => (st, [], false)
  | .doneSentinel => (st, [Frame.done], true)
  | .malformed => (st, [], false)
  | .event e => processEvent cfg st e

/-- The inner per-line `for` loop over one read's lines; a `break` (third
component true) abandons the remaining lines of this read only. -/
def processLines (cfg : ChatCfg) (st : ChatState) : List SseLine → ChatState × List Frame
  | [] => (st, [])
  | l :: rest =>
    let r := processLine cfg st l
    if r.2.2 then (r.1, r.2.1)
    else
      let r' := processLines cfg r.1 rest
      (r'.1, r.2.1 ++ r'.2)

/-- The outer read loop of `sseTranslateChat` (src/sse.ts lines 78-411):
the inner `break` does not exit this loop, so subsequent reads are still
processed with the carried-over state. -/
def chatLoop (cfg : ChatCfg) (st : ChatState) :
    List (List SseLine) → ChatState × List Frame
  | [] => (st, [])
  | batch :: rest =>
    let r := processLines cfg st batch
    let r' := chatLoop cfg r.1 rest
    (r'.1, r.2 ++ r'.2)

/-- Embeds `sseTranslateChat` end to end (src/sse.ts lines 25-438): the
compat mode is normalized once for the whole stream, the state starts
fresh, and the input is the sequence of line batches the reads yield. -/
def translateChat (model : String) (created : Nat) (reasoningCompat : String)
    (chunks : List (List SseLine)) : List Frame :=
  (chatLoop ⟨model, created, normalizeCompatMode reasoningCompat⟩ {} chunks).2

/-- The payloads of the emitted `{delta:{content}}` chunks, in order. -/
def contentPayloads (frames : List Frame) : List String :=
  frames.filterMap fun f =>
    match f with
    | .chunk c =>
      match c.delta with
      | .content s => some s
      | _ => none
    | _ => none

/-- The payloads of the visible text-delta events of a line list, in order. -/
def textDeltas (lines : List SseLine) : List String :=
  lines.filterMap fun l =>
    match l with
    | .event e => if e.type = "response.output_text.delta" then some (e.delta.getD "") else none
    | _ => none

/-- A line is terminal when processing it emits the `[DONE]` frame and
breaks the per-line loop: the literal sentinel or a `response.completed`
event. -/
def SseLine.isTerminal : SseLine → Bool
  | .doneSentinel => true
  | .event e => e.type = "response.completed"
  | _ => false

/-- A line carrying one of the four reasoning-delta events. -/
def SseLine.isReasoningDelta : SseLine → Bool
  | .event e => isReasoningKind e.type
  | _ => false

/-- A line carrying a visible text-delta event. -/
def SseLine.isTextDelta : SseLine → Bool
  | .event e => e.type = "response.output_text.delta"
  | _ => false

/-- True exactly for the `[DONE]` terminal frame. -/
def Frame.isDone : Frame → Bool
  | .done => true
  | _ => false

/-- JavaScript `a || b` when the left side is an optional string source
(absent or a string), returning the right side for `none` and `""`. -/
def orFalsyO (a : Option String) (b : String) : String := orFalsy a b

/-- Embeds the reasoning-compat resolution of the /v1/chat/completions
handler in the openai route file kept as src/unnamed/part_007 (lines
18-25): take the per-route override, else the REASONING_OUTPUT_MODE env
value, else "openai"; map "all" (after trim and lowercase) to "openai".
This handler performs no legacy/current rejection. -/
def resolveCompatOpenAiRoute (overrideMode envOutputMode : Option String) : String :=
  let reasoningCompat := orFalsy overrideMode (orFalsy envOutputMode "openai")
  if lowerStr (trimStr reasoningCompat) = "all" then "openai" else reasoningCompat

/-- Result of the compat pre-check in the handler variant that rejects
legacy modes: an immediate JSON error response or the mode to proceed with. -/
inductive CompatCheck where
  | rejected (status : Nat) (message : String)
  | proceed (compat : String)
deriving DecidableEq, Repr

/-- Embeds the reasoning-compat resolution and strict legacy/current
rejection of the /v1/chat/completions handler variant stored in
src/src/routes/ollama.ts (lines 589-607): override, else
REASONING_OUTPUT_MODE, else REASONING_COMPAT, else "tagged"; "all" maps to
"tagged"; then trimmed-lowercased "legacy"/"current" are rejected with a
400 telling the caller to use "standard". -/
def resolveCompatRejecting (overrideMode envOutputMode envCompat : Option String) :
    CompatCheck :=
  let reasoningCompat := orFalsy overrideMode (orFalsy envOutputMode (orFalsy envCompat "tagged"))
  let reasoningCompat := if reasoningCompat = "all" then "tagged" else reasoningCompat
  let compatRaw := lowerStr (trimStr reasoningCompat)
  if compatRaw = "legacy" ∨ compatRaw = "current" then
    .rejected 400
      "REASONING_COMPAT/REASONING_OUTPUT_MODE no longer supports legacy/current. Use standard."
  else .proceed reasoningCompat

/-- An element of a client-supplied `messages` array; only `role` and a
string `content` matter to the code modelled here. -/
structure MsgV where
  role : String := ""
  content : String := ""
deriving DecidableEq, Repr

/-- A JSON value as far as the messages-defaulting code inspects one:
enough to decide JS truthiness and `Array.isArray`. -/
inductive JsonV where
  | nullV
  | boolV (b : Bool)
  | numV (n : Int)
  | strV (s : String)
  | arrV (xs : List MsgV)
  | objV
deriving DecidableEq, Repr

/-- JavaScript truthiness of a `JsonV` (arrays and objects are truthy). -/
def JsonV.truthy : JsonV → Bool
  | .nullV => false
  | .boolV b => b
  | .numV n => n ≠ 0
  | .strV s => s ≠ ""
  | .arrV _ => true
  | .objV => true

/-- Truthiness of an optional field (`undefined` is falsy). -/
def truthyO : Option JsonV → Bool
  | some v => v.truthy
  | none => false

/-- The fields of the request payload that the messages-defaulting code of
the chat-completions handler reads. -/
structure ChatPayloadMsgs where
  messages : Option JsonV := none
  prompt : Option JsonV := none
  input : Option JsonV := none
deriving DecidableEq, Repr

/-- Embeds the messages defaulting and array check of the
/v1/chat/completions handler (src/unnamed/part_007 lines 61-73): when
`messages` is absent or falsy, synthesize one user message from a string
`prompt`, else from a string `input`, else use `[]`; afterwards a 400 is
returned exactly when the value is still not an array. -/
def resolveMessages (p : ChatPayloadMsgs) : Except String (List MsgV) :=
  let messages := p.messages
  let messages :=
    if ¬ truthyO messages then
      match p.prompt with
      | some (.strV s) => some (JsonV.arrV [{ role := "user", content := s }])
      | _ => messages
    else messages
  let messages :=
    if ¬ truthyO messages then
      match p.input with
      | some (.strV s) => some (JsonV.arrV [{ role := "user", content := s }])
      | _ => messages
    else messages
  let messages := if ¬ truthyO messages then some (JsonV.arrV []) else messages
  match messages with
  | some (.arrV xs) => .ok xs
  | _ => .error "Request must include messages: []"

/-- Accumulator state of the non-streaming chat-completions aggregation
(src/unnamed/part_007 lines 150-164). -/
structure AggState where
  fullText : String := ""
  reasoningSummaryText : String := ""
  reasoningFullText : String := ""
  responseId : String := "chatcmpl"
  finalUsage : Option NormalizedUsage := none
  toolCalls : List AggToolCall := []
  errorMessage : Option String := none
  completedEarly : Bool := false
  sawDataPrefix : Bool := false
deriving DecidableEq, Repr

/-- The sticky response-id capture of the aggregator (src/unnamed/part_007
lines 197-199). -/
def aggUpdateResponseId (st : AggState) (evt : SseEvent) : AggState :=
  match evt.response_id with
  | some s => { st with responseId := if s = "" then st.responseId else s }
  | none => st

/-- The usage capture of the aggregator (src/unnamed/part_007 lines
201-206): the first usage seen wins, except a usage attached to
`response.completed`, which always wins. -/
def aggCaptureUsage (st : AggState) (evt : SseEvent) : AggState :=
  let rawUsage := match evt.response_usage with | some u => some u | none => evt.usage
  match normalizeUsage rawUsage with
  | some nu =>
    let st := if st.finalUsage.isNone then { st with finalUsage := some nu } else st
    if evt.type = "response.completed" then { st with finalUsage := some nu } else st
  | none => st

/-- The kind dispatch of the aggregator (src/unnamed/part_007 lines
207-232): text and reasoning accumulation, tool-call collection, failure
message capture, and the completed flag. -/
def aggDispatch (st : AggState) (evt : SseEvent) : AggState :=
  let kind := evt.type
  if kind = "response.output_text.delta" then
    { st with fullText := st.fullText ++ evt.delta.getD "" }
  else if kind = "response.reasoning_summary_text.delta" then
    { st with reasoningSummaryText := st.reasoningSummaryText ++ evt.delta.getD "" }
  else if kind = "response.reasoning_text.delta" then
    { st with reasoningFullText := st.reasoningFullText ++ evt.delta.getD "" }
  else if kind = "response.output_item.done" then
    match evt.item with
    | some item =>
      if item.type = "function_call" then
        let callId := orFalsy item.call_id (orFalsy item.id "")
        let name := orFalsy item.name ""
        let args := orFalsy item.arguments ""
        { st with toolCalls := st.toolCalls ++ [⟨callId, name, args⟩] }
      else st
    | none => st
  else if kind = "response.failed" then
    let msg :=
      match evt.response_error_message with
      | some m => if m = "" then "response.failed" else m
      | none => "response.failed"
    { st with errorMessage := some msg }
  else if kind = "response.completed" then
    { st with completedEarly := true }
  else st

/-- Embeds the per-event accumulation of the non-streaming aggregator
(src/unnamed/part_007 lines 195-232), composing the three steps in source
order: id capture, usage capture, then the kind dispatch. -/
def aggProcessEvent (st : AggState) (evt : SseEvent) : AggState :=
  aggDispatch (aggCaptureUsage (aggUpdateResponseId st evt) evt) evt

/-- The aggregator's inner per-line loop (src/unnamed/part_007 lines
189-237): any `data:` line sets the sawDataPrefix flag; a literal `[DONE]`
line breaks out of the lines of this read; blank or unparseable payloads
are skipped (JSON.parse of them throws and the catch continues); a
`response.completed` event does not break this loop. -/
def aggLines (st : AggState) : List SseLine → AggState
  | [] => st
  | l :: rest =>
    match l with
    | .notData _ => aggLines st rest
    | .blank => aggLines { st with sawDataPrefix := true } rest
    | .malformed => aggLines { st with sawDataPrefix := true } rest
    | .doneSentinel => { st with sawDataPrefix := true }
    | .event e => aggLines (aggProcessEvent { st with sawDataPrefix := true } e) rest

/-- The aggregator's outer read loop (src/unnamed/part_007 lines 170-238):
after each read the loop stops when the previous batch set completedEarly;
otherwise the batch's lines are processed. The client-abort check is not
modelled (no cancellation in this embedding). -/
def aggLoop (st : AggState) : List (List SseLine) → AggState
  | [] => st
  | batch :: rest =>
    if st.completedEarly then st
    else aggLoop (aggLines st batch) rest

/-- Result of the non-streaming chat-completions path: the 502 JSON error
or the chat.completion object (reduced to the fields the claims concern:
the final message, the usage, and the response id). -/
inductive AggResult where
  | error502 (message : String)
  | completion (message : RMessage) (usage : Option NormalizedUsage) (id : String)
deriving DecidableEq, Repr

/-- True exactly for the 502 error result. -/
def AggResult.isError : AggResult → Bool
  | .error502 _ => true
  | _ => false

/-- Embeds the response construction after aggregation (src/unnamed/part_007
lines 289-316): a pending errorMessage short-circuits into a 502 JSON error;
otherwise the assistant message is built (`content: fullText || null`,
tool_calls only when non-empty — represented by the list itself) and passed
through `applyReasoningToMessage` with the route's compat string. -/
def finalizeChatCompletion (compat : String) (st : AggState) : AggResult :=
  match st.errorMessage with
  | some m => .error502 m
  | none =>
    let message : RMessage :=
      { role := "assistant",
        content := if st.fullText = "" then none else some st.fullText,
        tool_calls := st.toolCalls }
    let message := applyReasoningToMessage message st.reasoningSummaryText
        st.reasoningFullText compat
    .completion message st.finalUsage (if st.responseId = "" then "chatcmpl" else st.responseId)

/-- The whole non-streaming path of the /v1/chat/completions handler over
an upstream SSE body, from a fresh accumulator. The single-JSON-body
fallback (src/unnamed/part_007 lines 245-288) applies only when no
`data:` line was seen and is outside this SSE-framed model. -/
def chatCompletionsNonStreaming (compat : String) (chunks : List (List SseLine)) :
    AggResult :=
  finalizeChatCompletion compat (aggLoop {} chunks)

/-- The `image_url` value of a content part: a string or an object whose
`url` is present-and-string or not. -/
inductive ImageRef where
  | strRef (s : String)
  | objRef (url : Option String)
deriving DecidableEq, Repr

/-- A content part of an input-item message as the session canonicalizer
reads it (src/src/types.ts lines 323-335). -/
structure ContentPart where
  type : Option String := none
  text : Option String := none
  image_url : Option ImageRef := none
deriving DecidableEq, Repr

/-- A raw element of an item's content array: a non-object entry (skipped)
or an object part. -/
inductive RawPart where
  | nonObject
  | part (p : ContentPart)
deriving DecidableEq, Repr

/-- An input item as the session code reads it (src/src/types.ts). The
content is `none` when the field is not an array. -/
structure SessItem where
  type : String
  role : Option String := none
  content : Option (List RawPart) := none
deriving DecidableEq, Repr

/-- A canonicalized content part: `{type:"input_text",text}` or
`{type:"input_image",image_url}`. -/
inductive CanonPart where
  | inputText (text : String)
  | inputImage (image_url : String)
deriving DecidableEq, Repr

/-- The canonical first user message (src/src/types.ts CanonMessage); the
`type:"message"` and `role:"user"` fields are constants. -/
structure CanonMessage where
  content : List CanonPart
deriving DecidableEq, Repr

/-- Embeds `canonicalizeFirstUserMessage` (src/src/types.ts lines 316-339):
find the first item of type "message" whose role resolves to "user" (only
"assistant" is skipped; any other or missing role counts as "user"), keep
its non-empty input_text and input_image parts (image references reduced to
their URL), and return it when any part survives. -/
def canonicalizeFirstUserMessage : List SessItem → Option CanonMessage
  | [] => none
  | item :: rest =>
    if item.type ≠ "message" then canonicalizeFirstUserMessage rest
    else
      let role := if item.role = some "assistant" ∨ item.role = some "user" then
          item.role.getD "user" else "user"
      if role ≠ "user" then canonicalizeFirstUserMessage rest
      else
        let content := item.content.getD []
        let norm := content.filterMap fun rp =>
          match rp with
          | .nonObject => none
          | .part p =>
            if p.type = some "input_text" then
              let text := p.text.getD ""
              if text ≠ "" then some (CanonPart.inputText text) else none
            else if p.type = some "input_image" then
              match p.image_url with
              | some (.strRef s) => if s ≠ "" then some (CanonPart.inputImage s) else none
              | some (.objRef (some u)) => if u ≠ "" then some (CanonPart.inputImage u) else none
              | _ => none
            else none
        if norm ≠ [] then some ⟨norm⟩ else canonicalizeFirstUserMessage rest

/-- A JSON value, as far as JSON.stringify of the canonical fingerprint
needs one. -/
inductive JVal where
  | jstr (s : String)
  | jarr (xs : List JVal)
  | jobj (fields : List (String × JVal))
deriving Repr

/-- JSON string escaping for serialization (quote, backslash, and the
common control characters; other characters pass through, which covers
every string this development serializes). -/
def escapeJsonChar (c : Char) : String :=
  if c = '"' then "\\\""
  else if c = '\\' then "\\\\"
  else if c = '\n' then "\\n"
  else if c = '\r' then "\\r"
  else if c = '\t' then "\\t"
  else String.singleton c

/-- Escapes a whole string for JSON serialization. -/
def escapeJson (s : String) : String :=
  String.join (s.toList.map escapeJsonChar)

/-- A JSON string literal: quotes around the escaped text. -/
def jquote (s : String) : String := "\"" ++ escapeJson s ++ "\""

/-- Looks a field up in a serialized field list by name (JSON object keys
are unique in every object this development builds). -/
def jfieldLookup (k : String) (parts : List (String × String)) : Option String :=
  match parts with
  | [] => none
  | (k', v) :: rest => if k' = k then some v else jfieldLookup k rest

mutual

/-- JSON.stringify with an array replacer, as invoked by the session
fingerprint code: at every object (at every nesting depth) only properties
named in the replacer array are serialized, in the replacer array's order;
array elements are always serialized. -/
def stringifyR (keys : List String) : JVal → String
  | .jstr s => jquote s
  | .jarr xs => "[" ++ String.intercalate "," (stringifyRArr keys xs) ++ "]"
  | .jobj fs =>
    "\x7b" ++
      String.intercalate ","
        (keys.filterMap fun k =>
          (jfieldLookup k (stringifyRFields keys fs)).map fun v => jquote k ++ ":" ++ v) ++
      "\x7d"

/-- Serializes each array element with the same replacer. -/
def stringifyRArr (keys : List String) : List JVal → List String
  | [] => []
  | v :: vs => stringifyR keys v :: stringifyRArr keys vs

/-- Serializes every field's value with the same replacer, keeping the
field names for the replacer-ordered selection above. -/
def stringifyRFields (keys : List String) : List (String × JVal) → List (String × String)
  | [] => []
  | (k, v) :: fs => (k, stringifyR keys v) :: stringifyRFields keys fs

end

/-- The canonical first user message as a JSON value
(`{type:"message",role:"user",content:[...]}`). -/
def canonMessageJson (m : CanonMessage) : JVal :=
  .jobj [("type", .jstr "message"), ("role", .jstr "user"),
         ("content", .jarr (m.content.map fun p =>
           match p with
           | .inputText t => .jobj [("type", .jstr "input_text"), ("text", .jstr t)]
           | .inputImage u => .jobj [("type", .jstr "input_image"), ("image_url", .jstr u)]))]

/-- Embeds `canonicalizePrefix` (src/src/types.ts lines 341-352): build the
prefix object from the trimmed instructions (when non-empty) and the
canonical first user message (when present), then serialize it with
`JSON.stringify(prefix, Object.keys(prefix).sort())` — an array replacer of
the top-level key names, which also filters keys at every nesting depth. -/
def canonicalFingerprint (instructions : Option String)
    (inputItems : List SessItem) : String :=
  let inst := trimStr (instructions.getD "")
  let fields : List (String × JVal) :=
    (if inst ≠ "" then [("instructions", JVal.jstr inst)] else []) ++
    (match canonicalizeFirstUserMessage inputItems with
     | some m => [("first_user_message", canonMessageJson m)]
     | none => [])
  let keys := (fields.map Prod.fst).insertionSort (fun a b => strLeJs a b)
  stringifyR keys (.jobj fields)

/-- The module-level fingerprint cache (src/src/types.ts lines 302-304):
the FP_TO_UUID map (as an association list with unique keys) and the
FP_ORDER insertion-order list, capped at 10000 entries. -/
structure SessionCache where
  fpToUuid : List (String × String) := []
  fpOrder : List String := []
deriving DecidableEq, Repr

/-- Embeds `remember` (src/src/types.ts lines 306-314): insert only when
the key is new, then evict the oldest key when the order list exceeds
10000 entries. -/
def remember (fp sid : String) (cache : SessionCache) : SessionCache :=
  if (cache.fpToUuid.lookup fp).isSome then cache
  else
    let cache := { fpToUuid := cache.fpToUuid ++ [(fp, sid)],
                   fpOrder := cache.fpOrder ++ [fp] }
    if cache.fpOrder.length > 10000 then
      match cache.fpOrder with
      | [] => cache
      | oldest :: rest =>
        { fpToUuid := cache.fpToUuid.filter (fun p => p.1 ≠ oldest), fpOrder := rest }
    else cache

/-- Embeds `ensureSessionId` (src/src/types.ts lines 354-373) with the
cache passed explicitly and `crypto.randomUUID()` modelled by the freshSid
argument: a client-supplied id that trims to non-empty is returned as
trimmed; otherwise the canonical fingerprint string keys the cache, an
existing entry is returned, and a fresh id is minted and remembered. -/
def ensureSessionId (freshSid : String) (instructions : Option String)
    (inputItems : List SessItem) (clientSupplied : Option String)
    (cache : SessionCache) : String × SessionCache :=
  let client := trimStr (clientSupplied.getD "")
  if client ≠ "" then (client, cache)
  else
    let key := canonicalFingerprint instructions inputItems
    match cache.fpToUuid.lookup key with
    | some existing => (existing, cache)
    | none => (freshSid, remember key freshSid cache)

/-- Outcome of one upstream fetch attempt: the `ok` flag and status of the
response, and the parsed error body's `error.message` when present (the
non-JSON-body fallback carries no message, so it is `none` here). -/
structure FetchResp where
  ok : Bool
  status : Nat
  errorMessage : Option String := none
deriving DecidableEq, Repr

/-- Tokens returned by a successful `refreshAccessToken`. -/
structure RefreshTokens where
  access_token : String
  account_id : Option String := none
deriving DecidableEq, Repr

/-- The parsed value of the OPENAI_CODEX_AUTH environment variable:
invalid JSON, or an object whose string-valued entries are listed
(entries with non-string values behave as missing, matching the
`typeof maybeKey !== "string"` guard). -/
inductive CodexAuthVal where
  | invalidJson
  | obj (fields : List (String × String))
deriving DecidableEq, Repr

/-- The environment fields that steer the control flow of
`startUpstreamRequest`; `openaiCodexAuth = none` covers both the absent
and the empty (falsy) env string. -/
structure UpEnv where
  upstreamAuthMode : Option String := none
  openaiCodexAuth : Option CodexAuthVal := none
  upstreamApiKey : Option String := none
  upstreamAuthEnvKey : Option String := none
deriving DecidableEq, Repr

/-- The effects `startUpstreamRequest` performs, pre-resolved: the
credentials from `getRefreshedAuth`, the first fetch (exception message or
response), the refresh attempt's result, and the retry fetch. -/
structure UpstreamWorld where
  accessToken : Option String := none
  accountId : Option String := none
  firstFetch : Except String FetchResp
  refreshResult : Option RefreshTokens := none
  retryFetch : Except String FetchResp
deriving Repr

/-- A structured JSON error response (its status and `error.message`). -/
structure ErrResp where
  status : Nat
  message : String
deriving DecidableEq, Repr

/-- True when an optional string is absent or empty (JS falsy). -/
def strFalsy (o : Option String) : Bool :=
  match o with
  | none => true
  | some s => s = ""

/-- True when an optional string is absent or trims to empty. -/
def strBlank (o : Option String) : Bool :=
  match o with
  | none => true
  | some s => trimStr s = ""

/-- The value found for the configured key inside the parsed
OPENAI_CODEX_AUTH object (the empty object when the env var is unset,
matching `env.OPENAI_CODEX_AUTH ? JSON.parse(...) : \x7b\x7d`). -/
def codexAuthKey (env : UpEnv) : Option String :=
  let keyName := trimStr (orFalsy env.upstreamAuthEnvKey "OPENAI_API_KEY")
  match env.openaiCodexAuth with
  | some (.obj fields) => fields.lookup keyName
  | _ => none

/-- Embeds the control flow of `startUpstreamRequest` (src/src/upstream.ts
lines 234-837) for non-Ollama requests, with URL/header/body construction
abstracted away (it does not influence which of the two result fields is
produced): credential pre-checks per auth mode, the fetch, the error-body
parse, the single refresh-and-retry on a 401 in chatgpt_token mode, and
the catch-all 502 on a thrown fetch. Returns the pair
`(response, error)` of the source's result object. -/
def startUpstreamRequest (env : UpEnv) (isOllamaRequest : Bool) (w : UpstreamWorld) :
    Option FetchResp × Option ErrResp :=
  let authMode := orFalsy env.upstreamAuthMode "chatgpt_token"
  if ¬ isOllamaRequest ∧ authMode = "chatgpt_token" ∧
      (strFalsy w.accessToken ∨ strFalsy w.accountId) then
    (none, some ⟨401, "Missing ChatGPT credentials. Run 'codex login' first"⟩)
  else if ¬ isOllamaRequest ∧ authMode = "apikey_env" ∧ strBlank env.upstreamApiKey then
    (none, some ⟨401, "Missing upstream API key (set UPSTREAM_API_KEY)"⟩)
  else if ¬ isOllamaRequest ∧ authMode = "apikey_auth_json" ∧
      env.openaiCodexAuth = some .invalidJson then
    (none, some ⟨400, "Invalid OPENAI_CODEX_AUTH JSON"⟩)
  else if ¬ isOllamaRequest ∧ authMode = "apikey_auth_json" ∧
      strBlank (codexAuthKey env) then
    let keyName := trimStr (orFalsy env.upstreamAuthEnvKey "OPENAI_API_KEY")
    (none, some ⟨401,
      "Missing upstream API key in OPENAI_CODEX_AUTH at key '" ++ keyName ++ "'"⟩)
  else
    match w.firstFetch with
    | .error e => (none, some ⟨502, "Upstream ChatGPT request failed: " ++ e⟩)
    | .ok resp =>
      if resp.ok then (some resp, none)
      else
        let errMsg := orFalsy resp.errorMessage "Upstream error"
        if resp.status = 401 ∧ env.openaiCodexAuth.isSome ∧
            orFalsy env.upstreamAuthMode "chatgpt_token" = "chatgpt_token" then
          match w.refreshResult with
          | some _ =>
            (match w.retryFetch with
             | .error e => (none, some ⟨502, "Upstream ChatGPT request failed: " ++ e⟩)
             | .ok r2 =>
               if r2.ok then (some r2, none)
               else (none, some ⟨resp.status, errMsg⟩))
          | none => (none, some ⟨resp.status, errMsg⟩)
        else (none, some ⟨resp.status, errMsg⟩)

/-- Example upstream event: a reasoning-text delta carrying "T". -/
def exReasoningDelta : SseEvent :=
  { type := "response.reasoning_text.delta", delta := some "T" }

/-- Example upstream event: a visible text delta carrying "Hi". -/
def exTextDelta : SseEvent :=
  { type := "response.output_text.delta", delta := some "Hi" }

/-- Example upstream event: a bare `response.completed`. -/
def exCompleted : SseEvent := { type := "response.completed" }

/-- Example upstream event: a `response.failed` with message "boom". -/
def exFailed : SseEvent :=
  { type := "response.failed", response_error_message := some "boom" }

/-- Example input item: a user message whose only part is the given
input_text. -/
def exItemWithText (t : String) : SessItem :=
  { type := "message", role := some "user",
    content := some [.part { type := some "input_text", text := some t }] }

/-- No element of the list is an opening or closing think tag. -/
def noTags (l : List String) : Prop := "<think>" ∉ l ∧ "</think>" ∉ l

/-- The line's event payload, if any, is not itself one of the think-tag
strings (the hygiene hypothesis of the amended tagged-mode claim). -/
def tagFreeLine : SseLine → Bool
  | .event e => e.delta ≠ some "<think>" ∧ e.delta ≠ some "</think>"
  | _ => true

/-- A line that is neither a reasoning delta, nor a text delta, nor
terminal: processing it in tagged mode emits no content frames and leaves
the think flags alone. -/
def quietLine (l : SseLine) : Bool :=
  !l.isReasoningDelta && !l.isTextDelta && !l.isTerminal

/-- C1: in the non-streaming chat-completions path with mode "hidden", the
aggregated final message is not returned unchanged: because
`applyReasoningToMessage` only recognizes the string "hide", the mode
string "hidden" falls through to the think-tags default, and the final
content is `<think>T</think>Hi` instead of the claimed bare `Hi` with no
reasoning fields. This evaluates the code at the failing input
(reasoning delta "T", text delta "Hi", completed). -/
theorem c1_hidden_nonstreaming_packs_think_tags :
    chatCompletionsNonStreaming "hidden"
        [[.event exReasoningDelta, .event exTextDelta, .event exCompleted]] =
      .completion { role := "assistant", content := some "<think>T</think>Hi" }
        none "chatcmpl" ∧
    applyReasoningToMessage { role := "assistant", content := some "Hi" } "" "T" "hidden" ≠
      { role := "assistant", content := some "Hi" } := by
  exact ⟨by decide, by decide⟩

/-- C3: a parsed `response.output_text.done` event emits no frame at all —
the `*.done` catch-all branch precedes the specific branch in the source's
if/else chain, making the latter unreachable — contradicting the claim
that it emits a `{delta:{},finish_reason:"stop"}` chunk. Evaluated at the
failing input in two representative translator states. -/
theorem c3_output_text_done_emits_nothing :
    (processEvent ⟨"gpt-5", 1700000000, "openai"⟩ {}
        { type := "response.output_text.done" }).2.1 = [] ∧
    (processEvent ⟨"gpt-5", 1700000000, "tagged"⟩ { sentRole := true }
        { type := "response.output_text.done" }).2.1 = [] ∧
    (processEvent ⟨"gpt-5", 1700000000, "openai"⟩ {}
        { type := "response.custom_thing.done" }).2.1 = [] := by
  exact ⟨by decide, by decide, by decide⟩

/-- C6: the fingerprint string does not depend on the text content of the
first user message: `JSON.stringify(prefix, Object.keys(prefix).sort())`
filters keys at every nesting depth, so the canonical message serializes
as an empty object. Two calls differing only in the message text derive
the same key, and the second call returns the first call's cached id
rather than an independently minted one — contradicting the claim. -/
theorem c6_fingerprint_drops_message_text :
    canonicalFingerprint (some "inst") [exItemWithText "a"] =
      canonicalFingerprint (some "inst") [exItemWithText "b"] ∧
    canonicalFingerprint (some "inst") [exItemWithText "a"] =
      "\x7b\"first_user_message\":\x7b\x7d,\"instructions\":\"inst\"\x7d" ∧
    (ensureSessionId "uuid-2" (some "inst") [exItemWithText "b"] none
        (ensureSessionId "uuid-1" (some "inst") [exItemWithText "a"] none {}).2).1 =
      "uuid-1" := by
  exact ⟨by rfl, by rfl, by rfl⟩

/-- C2 counterexample: the /v1/chat/completions handler of the openai route
file (part_007) resolves a configured "legacy" mode without any rejection:
the derived compat string is "legacy" and the request continues — the
non-streaming packing step even has a dedicated legacy branch that sets
plain-string reasoning fields. So the claim that every chat-completions
request with a legacy mode gets an immediate 400 is false. -/
theorem c2_counterexample :
    resolveCompatOpenAiRoute none (some "legacy") = "legacy" ∧
    (applyReasoningToMessage { role := "assistant", content := some "Hello" } "S" "F"
        (resolveCompatOpenAiRoute none (some "legacy"))).reasoning = some (.str "F") := by
  exact ⟨by rfl, by decide⟩

/-- C2 amended: the strict rejection exists only in the chat-completions
handler variant stored in routes/ollama.ts: there a configured "legacy" or
"current" mode produces an immediate 400 whose error.message directs the
caller to the supported mode name ("Use standard."); the part_007 handler
performs no such check and continues. -/
theorem c2_amended_rejecting_variant (envMode : String)
    (h : envMode = "legacy" ∨ envMode = "current") :
    resolveCompatRejecting none (some envMode) none =
      .rejected 400
        "REASONING_COMPAT/REASONING_OUTPUT_MODE no longer supports legacy/current. Use standard." := by
  rcases h with h | h <;> subst h <;> rfl

/-- Witness for the amended C2 theorem at the concrete mode "legacy". -/
theorem c2_amended_rejecting_variant_witness :
    ("legacy" = "legacy" ∨ "legacy" = "current") ∧
    resolveCompatRejecting none (some "legacy") none =
      .rejected 400
        "REASONING_COMPAT/REASONING_OUTPUT_MODE no longer supports legacy/current. Use standard." :=
  ⟨Or.inl rfl, c2_amended_rejecting_variant "legacy" (Or.inl rfl)⟩

/-- C4 counterexample: in tagged mode, a stream with one reasoning delta
that ends with a literal upstream `[DONE]` sentinel (no
`response.completed`) emits `<think>` but never any `</think>` — the
sentinel path forwards `[DONE]` without closing the think block — so the
claimed "`</think>` exactly once, before the terminal handling" fails. -/
theorem c4_counterexample :
    (contentPayloads (translateChat "m" 0 "tagged"
        [[.event exReasoningDelta, .doneSentinel]])).count "</think>" = 0 ∧
    (contentPayloads (translateChat "m" 0 "tagged"
        [[.event exReasoningDelta, .doneSentinel]])).count "<think>" = 1 ∧
    (translateChat "m" 0 "tagged"
        [[.event exReasoningDelta, .doneSentinel]]).getLast? = some Frame.done := by
  exact ⟨by decide, by decide, by decide⟩

/-- C5 counterexample: when the upstream sends `response.completed` and a
literal `[DONE]` sentinel in two separate reads, the translated stream
contains two `data: [DONE]` frames — the `break` after emitting `[DONE]`
exits only the per-line loop, and the next read is processed — so the
claimed "exactly one terminal frame even in that case" fails. -/
theorem c5_counterexample :
    ((translateChat "m" 0 "openai" [[.event exCompleted], [.doneSentinel]]).filter
        Frame.isDone).length = 2 := by
  decide

/-- C7 counterexample: `ensureSessionId` trims the client-supplied id, so
the id " x " (non-empty) is not returned byte-for-byte; and a
whitespace-only client id (also non-empty) falls through to the
fingerprint path and does insert into the cache. -/
theorem c7_counterexample :
    (ensureSessionId "fresh-1" none [] (some " x ") {}).1 ≠ " x " ∧
    (ensureSessionId "fresh-1" none [] (some " x ") {}).1 = "x" ∧
    (ensureSessionId "fresh-2" none [] (some "   ") {}).2.fpToUuid ≠ [] := by
  exact ⟨by decide, by decide, by decide⟩

/-- Looking up a freshly appended key succeeds when the key was absent. -/
theorem lookup_append_fresh (k v : String) (l : List (String × String))
    (h : l.lookup k = none) : (l ++ [(k, v)]).lookup k = some v := by
  induction l with
  | nil => simp [List.lookup]
  | cons p rest ih =>
    rcases p with ⟨k', v'⟩
    by_cases hk : (k == k')
    · simp [List.lookup, hk] at h
    · simp only [List.lookup, hk, List.cons_append] at h ⊢
      exact ih h

/-- C7 amended: a client-supplied id whose trim is non-empty is returned
trimmed (hence verbatim exactly when it carries no surrounding whitespace)
with the cache untouched; and with no client id, two consecutive calls with
the identical (instructions, input items) return the same id, provided the
cache is below its 10000-entry bound so the fresh entry is not evicted. -/
theorem c7_amended_session_id :
    (∀ (freshSid : String) (instructions : Option String) (items : List SessItem)
        (client : Option String) (cache : SessionCache),
        trimStr (client.getD "") ≠ "" →
        ensureSessionId freshSid instructions items client cache =
          (trimStr (client.getD ""), cache)) ∧
    (∀ (f1 f2 : String) (instructions : Option String) (items : List SessItem)
        (cache : SessionCache), cache.fpOrder.length < 10000 →
        (ensureSessionId f2 instructions items none
            (ensureSessionId f1 instructions items none cache).2).1 =
          (ensureSessionId f1 instructions items none cache).1) := by
  constructor
  · intro freshSid instructions items client cache h
    simp [ensureSessionId, h]
  · intro f1 f2 instructions items cache hlen
    have hclient : trimStr ((none : Option String).getD "") = "" := rfl
    simp only [ensureSessionId, hclient, ne_eq, not_true_eq_false, if_false,
      reduceIte]
    rcases hl : cache.fpToUuid.lookup (canonicalFingerprint instructions items) with _ | ex
    · simp only [hl]
      have hlen2 :
          ¬ ((cache.fpOrder ++ [canonicalFingerprint instructions items]).length > 10000) := by
        simp only [List.length_append, List.length_singleton]
        omega
      have hrem : (remember (canonicalFingerprint instructions items) f1 cache).fpToUuid =
          cache.fpToUuid ++ [(canonicalFingerprint instructions items, f1)] := by
        simp only [remember, hl, Option.isSome_none, Bool.false_eq_true, if_false,
          reduceIte, List.length_append, List.length_singleton]
        rw [if_neg (by omega)]
      simp [hrem, lookup_append_fresh _ _ _ hl]
    · simp [hl]

/-- Witness for the amended C7 theorem: a concrete padded client id is
returned trimmed with the cache unchanged, and a concrete repeated
derivation returns the first minted id. -/
theorem c7_amended_session_id_witness :
    ensureSessionId "f0" none [] (some " abc ") {} = ("abc", {}) ∧
    (ensureSessionId "f2" (some "i") [] none
        (ensureSessionId "f1" (some "i") [] none {}).2).1 =
      (ensureSessionId "f1" (some "i") [] none {}).1 :=
  ⟨c7_amended_session_id.1 "f0" none [] (some " abc ") {} (by decide),
   c7_amended_session_id.2 "f1" "f2" (some "i") [] {} (by decide)⟩

set_option maxHeartbeats 1000000 in
/-- When the `messages` field is absent or falsy, the defaulting chain
always ends in an array, so the handler never returns the messages 400. -/
theorem resolveMessages_ok_of_not_truthy (p : ChatPayloadMsgs)
    (h : truthyO p.messages = false) : ∃ xs, resolveMessages p = .ok xs := by
  unfold resolveMessages
  rcases hp : p.prompt with _ | (_ | bp | np | sp | xsp | _) <;>
    rcases hi : p.input with _ | (_ | bi | ni | si | xsi | _) <;>
      simp_all [truthyO, JsonV.truthy]

set_option maxHeartbeats 1000000 in
/-- C10: a body with no `messages` field is not rejected — a single user
message is synthesized from a string `prompt`, else from a string `input`,
else the empty list is used, and the request proceeds; and a
messages-related 400 arises only when `messages` is present, truthy, and
not an array (so it survives the defaulting), with exactly the source's
error message. -/
theorem c10_messages_not_required (p : ChatPayloadMsgs) :
    (p.messages = none →
      resolveMessages p = .ok
        (match p.prompt with
         | some (.strV s) => [{ role := "user", content := s }]
         | _ =>
           match p.input with
           | some (.strV s) => [{ role := "user", content := s }]
           | _ => [])) ∧
    (∀ e, resolveMessages p = .error e →
      ∃ v, p.messages = some v ∧ v.truthy = true ∧ (∀ xs, v ≠ .arrV xs) ∧
        e = "Request must include messages: []") := by
  have part1 : p.messages = none →
      resolveMessages p = .ok
        (match p.prompt with
         | some (.strV s) => [{ role := "user", content := s }]
         | _ =>
           match p.input with
           | some (.strV s) => [{ role := "user", content := s }]
           | _ => []) := by
    intro h
    unfold resolveMessages
    rw [h]
    rcases hp : p.prompt with _ | (_ | bp | np | sp | xsp | _) <;>
      rcases hi : p.input with _ | (_ | bi | ni | si | xsi | _) <;>
        simp [truthyO, JsonV.truthy]
  refine ⟨part1, ?_⟩
  intro e h
  rcases hm : p.messages with _ | v
  · rw [part1 hm] at h
    exact absurd h (by simp)
  · by_cases ht : v.truthy = true
    · refine ⟨v, rfl, ht, ?_, ?_⟩
      · intro xs hxs
        subst hxs
        unfold resolveMessages at h
        rw [hm] at h
        simp [truthyO, JsonV.truthy] at h
      · unfold resolveMessages at h
        rw [hm] at h
        rcases v with _ | b | n | s | xs | _ <;>
          simp_all [truthyO, JsonV.truthy]
    · have hf : truthyO p.messages = false := by
        rw [hm]
        simpa [truthyO] using Bool.not_eq_true _ |>.mp ht
      rcases resolveMessages_ok_of_not_truthy p hf with ⟨xs, hok⟩
      rw [hok] at h
      exact absurd h (by simp)

/-- Witness for C10 at a concrete payload with no messages field and a
string prompt. -/
theorem c10_messages_not_required_witness :
    resolveMessages { prompt := some (.strV "hello") } =
      .ok [{ role := "user", content := "hello" }] := by
  have h := (c10_messages_not_required { prompt := some (.strV "hello") }).1 rfl
  simpa using h

/-- C8: `startUpstreamRequest` always returns exactly one of
(response, error) non-null: every failure path yields a structured error
with no response, and every success path yields a response with no error. -/
theorem c8_exactly_one_non_null (env : UpEnv) (isOllamaRequest : Bool)
    (w : UpstreamWorld) :
    ((startUpstreamRequest env isOllamaRequest w).1.isSome = true ∧
      (startUpstreamRequest env isOllamaRequest w).2 = none) ∨
    ((startUpstreamRequest env isOllamaRequest w).1 = none ∧
      (startUpstreamRequest env isOllamaRequest w).2.isSome = true) := by
  simp only [startUpstreamRequest]
  split_ifs <;> (repeat' split) <;> simp_all


theorem done_not_mem_ensureRole (cfg : ChatCfg) (st : ChatState) :
    Frame.done ∉ (ensureRole cfg st).2 := by
  unfold ensureRole
  split <;> simp

theorem handleTextDelta_frames (cfg : ChatCfg) (st : ChatState) (evt : SseEvent) :
    Frame.done ∉ (handleTextDelta cfg st evt).2.1 ∧
      (handleTextDelta cfg st evt).2.2 = false := by
  simp only [handleTextDelta]
  split_ifs <;> simp [done_not_mem_ensureRole]

theorem handleOutputItemDone_frames (cfg : ChatCfg) (st : ChatState) (evt : SseEvent) :
    Frame.done ∉ (handleOutputItemDone cfg st evt).2.1 ∧
      (handleOutputItemDone cfg st evt).2.2 = false := by
  simp only [handleOutputItemDone]
  (repeat' split) <;> simp [done_not_mem_ensureRole]

theorem handleSummaryPartAdded_frames (cfg : ChatCfg) (st : ChatState) :
    Frame.done ∉ (handleSummaryPartAdded cfg st).2.1 ∧
      (handleSummaryPartAdded cfg st).2.2 = false := by
  simp only [handleSummaryPartAdded]
  (repeat' split) <;> simp

theorem handleReasoningDelta_frames (cfg : ChatCfg) (st : ChatState) (evt : SseEvent) :
    Frame.done ∉ (handleReasoningDelta cfg st evt).2.1 ∧
      (handleReasoningDelta cfg st evt).2.2 = false := by
  simp only [handleReasoningDelta]
  split_ifs <;> simp [done_not_mem_ensureRole]

theorem handleFailed_frames (st : ChatState) (evt : SseEvent) :
    Frame.done ∉ (handleFailed st evt).2.1 ∧ (handleFailed st evt).2.2 = false := by
  simp only [handleFailed]
  (repeat' split) <;> simp

theorem handleCompleted_frames (cfg : ChatCfg) (st : ChatState) (evt : SseEvent) :
    ∃ fs, (handleCompleted cfg st evt).2.1 = fs ++ [Frame.done] ∧ Frame.done ∉ fs ∧
      (handleCompleted cfg st evt).2.2 = true := by
  simp only [handleCompleted]
  (repeat' split) <;> exact ⟨_, rfl, by simp, by simp⟩

theorem processEvent_not_completed (cfg : ChatCfg) (st : ChatState) (evt : SseEvent)
    (h : evt.type ≠ "response.completed") :
    Frame.done ∉ (processEvent cfg st evt).2.1 ∧ (processEvent cfg st evt).2.2 = false := by
  simp only [processEvent]
  split_ifs <;>
    first
      | exact handleTextDelta_frames ..
      | exact handleOutputItemDone_frames ..
      | exact handleSummaryPartAdded_frames ..
      | exact handleReasoningDelta_frames ..
      | exact handleFailed_frames ..
      | simp_all

theorem processEvent_completed (cfg : ChatCfg) (st : ChatState) (evt : SseEvent)
    (h : evt.type = "response.completed") :
    ∃ fs, (processEvent cfg st evt).2.1 = fs ++ [Frame.done] ∧ Frame.done ∉ fs ∧
      (processEvent cfg st evt).2.2 = true := by
  simp only [processEvent, h]
  rw [if_neg (by decide), if_neg (by decide), if_neg (by decide), if_neg (by decide),
      if_neg (by decide), if_neg (by decide), if_neg (by decide)]
  simp only [ite_true]
  exact handleCompleted_frames ..

theorem processLine_not_terminal (cfg : ChatCfg) (st : ChatState) (l : SseLine)
    (h : l.isTerminal = false) :
    Frame.done ∉ (processLine cfg st l).2.1 ∧ (processLine cfg st l).2.2 = false := by
  rcases l with s | _ | _ | _ | e
  · simp [processLine]
  · simp [processLine]
  · simp [SseLine.isTerminal] at h
  · simp [processLine]
  · have he : e.type ≠ "response.completed" := by
      simpa [SseLine.isTerminal] using h
    simpa [processLine] using processEvent_not_completed cfg st e he

theorem processLine_terminal (cfg : ChatCfg) (st : ChatState) (l : SseLine)
    (h : l.isTerminal = true) :
    ∃ fs, (processLine cfg st l).2.1 = fs ++ [Frame.done] ∧ Frame.done ∉ fs ∧
      (processLine cfg st l).2.2 = true := by
  rcases l with s | _ | _ | _ | e
  · simp [SseLine.isTerminal] at h
  · simp [SseLine.isTerminal] at h
  · exact ⟨[], by simp [processLine], by simp, by simp [processLine]⟩
  · simp [SseLine.isTerminal] at h
  · have he : e.type = "response.completed" := by
      simpa [SseLine.isTerminal] using h
    simpa [processLine] using processEvent_completed cfg st e he

theorem processLines_no_done (cfg : ChatCfg) (st : ChatState) (ls : List SseLine)
    (h : ∀ l ∈ ls, l.isTerminal = false) :
    Frame.done ∉ (processLines cfg st ls).2 := by
  induction ls generalizing st with
  | nil => simp [processLines]
  | cons l rest ih =>
    have hl := processLine_not_terminal cfg st l (h l (by simp))
    simp only [processLines, hl.2, if_false, Bool.false_eq_true]
    simp only [List.mem_append, not_or]
    exact ⟨hl.1, ih _ fun x hx => h x (by simp [hx])⟩

theorem processLines_terminal (cfg : ChatCfg) (st : ChatState) (ls : List SseLine)
    (h : ∃ l ∈ ls, l.isTerminal = true) :
    ∃ fs, (processLines cfg st ls).2 = fs ++ [Frame.done] ∧ Frame.done ∉ fs := by
  induction ls generalizing st with
  | nil => simp at h
  | cons l rest ih =>
    by_cases hl : l.isTerminal = true
    · obtain ⟨fs, hfs, hnd, hstop⟩ := processLine_terminal cfg st l hl
      exact ⟨fs, by simp [processLines, hstop, hfs], hnd⟩
    · have hl' : l.isTerminal = false := by simpa using hl
      have hrest : ∃ x ∈ rest, x.isTerminal = true := by
        rcases h with ⟨x, hx, hxt⟩
        rcases List.mem_cons.mp hx with rfl | hx'
        · exact absurd hxt hl
        · exact ⟨x, hx', hxt⟩
      obtain ⟨hnd, hstop⟩ := processLine_not_terminal cfg st l hl'
      obtain ⟨fs, hfs, hnd'⟩ := ih (processLine cfg st l).1 hrest
      refine ⟨(processLine cfg st l).2.1 ++ fs, ?_, ?_⟩
      · simp [processLines, hstop, hfs]
      · simp [List.mem_append, not_or]
        exact ⟨hnd, hnd'⟩

theorem chatLoop_append (cfg : ChatCfg) (st : ChatState) (as bs : List (List SseLine)) :
    chatLoop cfg st (as ++ bs) =
      ((chatLoop cfg (chatLoop cfg st as).1 bs).1,
       (chatLoop cfg st as).2 ++ (chatLoop cfg (chatLoop cfg st as).1 bs).2) := by
  induction as generalizing st with
  | nil => simp [chatLoop]
  | cons b rest ih => simp [chatLoop, ih]

theorem chatLoop_no_done (cfg : ChatCfg) (st : ChatState) (bs : List (List SseLine))
    (h : ∀ b ∈ bs, ∀ l ∈ b, l.isTerminal = false) :
    Frame.done ∉ (chatLoop cfg st bs).2 := by
  induction bs generalizing st with
  | nil => simp [chatLoop]
  | cons b rest ih =>
    simp only [chatLoop, List.mem_append, not_or]
    exact ⟨processLines_no_done cfg st b (h b (by simp)),
           ih _ fun x hx l hl => h x (by simp [hx]) l hl⟩

/-- C5 amended: a single `data: [DONE]` frame, and last, is guaranteed
exactly when the read chunk containing the first terminal event (a
`response.completed` event or a literal upstream `[DONE]` sentinel) is the
final read the upstream delivers: within that chunk the `break` skips the
remaining lines, and nothing follows. (When the upstream sends further
data in later reads, more frames — including a second `[DONE]` — can
follow, as the counterexample shows: the `break` exits only the per-line
loop.) -/
theorem c5_amended_single_done_last (model : String) (created : Nat)
    (reasoningCompat : String) (pre : List (List SseLine))
    (lastBatch : List SseLine)
    (hpre : ∀ b ∈ pre, ∀ l ∈ b, l.isTerminal = false)
    (hlast : ∃ l ∈ lastBatch, l.isTerminal = true) :
    ∃ fs, translateChat model created reasoningCompat (pre ++ [lastBatch]) =
        fs ++ [Frame.done] ∧ Frame.done ∉ fs := by
  unfold translateChat
  set cfg : ChatCfg := ⟨model, created, normalizeCompatMode reasoningCompat⟩
  set st : ChatState := {}
  rw [chatLoop_append]
  obtain ⟨fs2, h2, h2'⟩ := processLines_terminal cfg (chatLoop cfg st pre).1 lastBatch hlast
  refine ⟨(chatLoop cfg st pre).2 ++ fs2, ?_, ?_⟩
  · simp [chatLoop, h2]
  · simp only [List.mem_append, not_or]
    exact ⟨chatLoop_no_done cfg st pre hpre, h2'⟩

/-- Witness for the amended C5 theorem: a concrete stream whose final read
holds the completed event. -/
theorem c5_amended_single_done_last_witness :
    (∀ b ∈ [[SseLine.event exTextDelta]], ∀ l ∈ b, SseLine.isTerminal l = false) ∧
    (∃ l ∈ [SseLine.event exCompleted], SseLine.isTerminal l = true) ∧
    ∃ fs, translateChat "m" 0 "openai" ([[SseLine.event exTextDelta]] ++
        [[SseLine.event exCompleted]]) = fs ++ [Frame.done] ∧ Frame.done ∉ fs :=
  ⟨by decide, by decide,
   c5_amended_single_done_last "m" 0 "openai" [[SseLine.event exTextDelta]]
     [SseLine.event exCompleted] (by decide) (by decide)⟩


theorem aggUpdateResponseId_fields (st : AggState) (e : SseEvent) :
    (aggUpdateResponseId st e).errorMessage = st.errorMessage ∧
    (aggUpdateResponseId st e).completedEarly = st.completedEarly := by
  simp only [aggUpdateResponseId]
  (repeat' split) <;> simp

theorem aggCaptureUsage_fields (st : AggState) (e : SseEvent) :
    (aggCaptureUsage st e).errorMessage = st.errorMessage ∧
    (aggCaptureUsage st e).completedEarly = st.completedEarly := by
  simp only [aggCaptureUsage]
  (repeat' split) <;> simp

theorem aggDispatch_error_mono (st : AggState) (e : SseEvent)
    (h : st.errorMessage.isSome = true) :
    ((aggDispatch st e).errorMessage).isSome = true := by
  simp only [aggDispatch]
  (repeat' split) <;> simp_all

theorem aggProcessEvent_error_mono (st : AggState) (e : SseEvent)
    (h : st.errorMessage.isSome = true) :
    ((aggProcessEvent st e).errorMessage).isSome = true := by
  simp only [aggProcessEvent]
  apply aggDispatch_error_mono
  rw [(aggCaptureUsage_fields _ e).1, (aggUpdateResponseId_fields st e).1]
  exact h

theorem aggProcessEvent_failed (st : AggState) (e : SseEvent)
    (h : e.type = "response.failed") :
    ((aggProcessEvent st e).errorMessage).isSome = true := by
  simp only [aggProcessEvent, aggDispatch, h]
  rw [if_neg (by decide), if_neg (by decide), if_neg (by decide), if_neg (by decide)]
  simp only [ite_true]
  simp

theorem aggProcessEvent_completedEarly (st : AggState) (e : SseEvent)
    (h : e.type ≠ "response.completed") :
    (aggProcessEvent st e).completedEarly = st.completedEarly := by
  simp only [aggProcessEvent]
  have hd : (aggDispatch (aggCaptureUsage (aggUpdateResponseId st e) e) e).completedEarly =
      (aggCaptureUsage (aggUpdateResponseId st e) e).completedEarly := by
    simp only [aggDispatch]
    (repeat' split) <;> simp_all
  rw [hd, (aggCaptureUsage_fields _ e).2, (aggUpdateResponseId_fields st e).2]

theorem aggLines_error_mono (st : AggState) (ls : List SseLine)
    (h : st.errorMessage.isSome = true) :
    ((aggLines st ls).errorMessage).isSome = true := by
  induction ls generalizing st with
  | nil => simpa [aggLines] using h
  | cons l rest ih =>
    cases l with
    | notData s => simp only [aggLines]; exact ih st h
    | blank => simp only [aggLines]; exact ih _ h
    | doneSentinel => simp only [aggLines]; simpa using h
    | malformed => simp only [aggLines]; exact ih _ h
    | event e => simp only [aggLines]; exact ih _ (aggProcessEvent_error_mono _ e h)

theorem aggLines_completedEarly (st : AggState) (ls : List SseLine)
    (h : ∀ e, SseLine.event e ∈ ls → e.type ≠ "response.completed") :
    (aggLines st ls).completedEarly = st.completedEarly := by
  induction ls generalizing st with
  | nil => simp [aggLines]
  | cons l rest ih =>
    cases l with
    | notData s => simp only [aggLines]; exact ih st fun x hx => h x (by simp [hx])
    | blank => simp only [aggLines]; exact ih _ fun x hx => h x (by simp [hx])
    | doneSentinel => simp only [aggLines]
    | malformed => simp only [aggLines]; exact ih _ fun x hx => h x (by simp [hx])
    | event e =>
      simp only [aggLines]
      rw [ih _ fun x hx => h x (by simp [hx])]
      exact aggProcessEvent_completedEarly _ e (h e (by simp))

theorem aggLines_failed (st : AggState) (b1 b2 : List SseLine) (fe : SseEvent)
    (hfe : fe.type = "response.failed") (hb1 : SseLine.doneSentinel ∉ b1) :
    ((aggLines st (b1 ++ SseLine.event fe :: b2)).errorMessage).isSome = true := by
  induction b1 generalizing st with
  | nil =>
    simp only [List.nil_append, aggLines]
    exact aggLines_error_mono _ b2 (aggProcessEvent_failed _ fe hfe)
  | cons l rest ih =>
    have hb1' : SseLine.doneSentinel ∉ rest := fun hx => hb1 (by simp [hx])
    cases l with
    | notData s => simp only [List.cons_append, aggLines]; exact ih st hb1'
    | blank => simp only [List.cons_append, aggLines]; exact ih _ hb1'
    | doneSentinel => exact absurd (by simp) hb1
    | malformed => simp only [List.cons_append, aggLines]; exact ih _ hb1'
    | event e => simp only [List.cons_append, aggLines]; exact ih _ hb1'

theorem aggLoop_error_mono (st : AggState) (bs : List (List SseLine))
    (h : st.errorMessage.isSome = true) :
    ((aggLoop st bs).errorMessage).isSome = true := by
  induction bs generalizing st with
  | nil => simpa [aggLoop] using h
  | cons b rest ih =>
    simp only [aggLoop]
    split
    · exact h
    · exact ih _ (aggLines_error_mono st b h)

theorem aggLoop_failed_reaches (st : AggState) (pre post : List (List SseLine))
    (b1 b2 : List SseLine) (fe : SseEvent)
    (hst : st.completedEarly = false)
    (hfe : fe.type = "response.failed")
    (hpre : ∀ b ∈ pre, ∀ e, SseLine.event e ∈ b → e.type ≠ "response.completed")
    (hb1 : SseLine.doneSentinel ∉ b1) :
    ((aggLoop st (pre ++ (b1 ++ SseLine.event fe :: b2) :: post)).errorMessage).isSome =
      true := by
  induction pre generalizing st with
  | nil =>
    simp only [List.nil_append, aggLoop, hst, Bool.false_eq_true, if_false, reduceIte]
    exact aggLoop_error_mono _ post (aggLines_failed st b1 b2 fe hfe hb1)
  | cons b rest ih =>
    simp only [List.cons_append, aggLoop, hst, Bool.false_eq_true, if_false, reduceIte]
    have hce : (aggLines st b).completedEarly = false := by
      rw [aggLines_completedEarly st b (hpre b (by simp))]
      exact hst
    exact ih _ hce fun x hx => hpre x (by simp [hx])

/-- C9 counterexample: a `response.failed` event in the read chunk after
the chunk carrying `response.completed` is never processed — the aggregator
sets `completedEarly` and stops reading — so the non-streaming path returns
the 200 completion with the accumulated text "Hi", not the claimed 502, and
the claim's "anywhere in the stream" fails. -/
theorem c9_counterexample :
    chatCompletionsNonStreaming "standard"
        [[.event exTextDelta, .event exCompleted], [.event exFailed]] =
      .completion { role := "assistant", content := some "Hi" } none "chatcmpl" ∧
    (chatCompletionsNonStreaming "standard"
        [[.event exTextDelta, .event exCompleted], [.event exFailed]]).isError
      = false := by
  exact ⟨by decide, by decide⟩

/-- C9 amended: a `response.failed` event that the aggregator actually
processes — none of the earlier read chunks contained a `response.completed`
event (which stops reading at the next read), and no literal `[DONE]` line
precedes it within its own chunk (which breaks that chunk's line loop) —
makes the non-streaming path return the 502 JSON error, discarding all
accumulated text, reasoning, and tool calls (the completion object is never
built); the streaming translator instead emits a single inline error frame
for the same event and keeps going. -/
theorem c9_amended_failed_502 (compat : String) (pre post : List (List SseLine))
    (b1 b2 : List SseLine) (fe : SseEvent)
    (hfe : fe.type = "response.failed")
    (hpre : ∀ b ∈ pre, ∀ e, SseLine.event e ∈ b → e.type ≠ "response.completed")
    (hb1 : SseLine.doneSentinel ∉ b1) :
    (∃ m, chatCompletionsNonStreaming compat
        (pre ++ (b1 ++ SseLine.event fe :: b2) :: post) = .error502 m) ∧
    (∀ cfg st, ∃ m, (processEvent cfg st fe).2.1 = [Frame.errorFrame m] ∧
      (processEvent cfg st fe).2.2 = false) := by
  constructor
  · have hs := aggLoop_failed_reaches {} pre post b1 b2 fe rfl hfe hpre hb1
    obtain ⟨m, hm⟩ := Option.isSome_iff_exists.mp hs
    exact ⟨m, by simp [chatCompletionsNonStreaming, finalizeChatCompletion, hm]⟩
  · intro cfg st
    simp only [processEvent, hfe]
    rw [if_neg (by decide), if_neg (by decide), if_neg (by decide), if_neg (by decide),
        if_neg (by decide), if_neg (by decide)]
    simp only [ite_true]
    exact ⟨_, rfl, rfl⟩

/-- Witness for the amended C9 theorem at a concrete stream: text in the
first read, then text followed by the failure in the second. -/
theorem c9_amended_failed_502_witness :
    (SseEvent.type exFailed = "response.failed") ∧
    (∃ m, chatCompletionsNonStreaming "openai"
        ([[SseLine.event exTextDelta]] ++
          ([SseLine.event exTextDelta] ++ SseLine.event exFailed :: []) :: []) =
      .error502 m) ∧
    (∀ cfg st, ∃ m, (processEvent cfg st exFailed).2.1 = [Frame.errorFrame m] ∧
      (processEvent cfg st exFailed).2.2 = false) := by
  refine ⟨rfl, ?_, ?_⟩
  · exact (c9_amended_failed_502 "openai" [[SseLine.event exTextDelta]] []
      [SseLine.event exTextDelta] [] exFailed rfl
      (by intro b hb e he
          simp only [List.mem_singleton] at hb
          subst hb
          simp only [List.mem_singleton, SseLine.event.injEq] at he
          subst he
          decide)
      (by decide)).1
  · exact (c9_amended_failed_502 "openai" [[SseLine.event exTextDelta]] []
      [SseLine.event exTextDelta] [] exFailed rfl
      (by intro b hb e he
          simp only [List.mem_singleton] at hb
          subst hb
          simp only [List.mem_singleton, SseLine.event.injEq] at he
          subst he
          decide)
      (by decide)).2

theorem contentPayloads_append (a b : List Frame) :
    contentPayloads (a ++ b) = contentPayloads a ++ contentPayloads b := by
  simp [contentPayloads]

theorem updateResponseId_flags (st : ChatState) (evt : SseEvent) :
    (updateResponseId st evt).thinkOpen = st.thinkOpen ∧
    (updateResponseId st evt).thinkClosed = st.thinkClosed := by
  simp only [updateResponseId]
  (repeat' split) <;> simp

theorem ensureRole_flags (cfg : ChatCfg) (st : ChatState) :
    (ensureRole cfg st).1.thinkOpen = st.thinkOpen ∧
    (ensureRole cfg st).1.thinkClosed = st.thinkClosed ∧
    (ensureRole cfg st).1.pendingSummaryParagraph = st.pendingSummaryParagraph ∧
    (ensureRole cfg st).1.responseId = st.responseId ∧
    contentPayloads (ensureRole cfg st).2 = [] := by
  simp only [ensureRole]
  (repeat' split) <;> simp [contentPayloads, mkChunk]

theorem handleOutputItemDone_quiet (cfg : ChatCfg) (st : ChatState) (evt : SseEvent) :
    (handleOutputItemDone cfg st evt).1.thinkOpen = st.thinkOpen ∧
    (handleOutputItemDone cfg st evt).1.thinkClosed = st.thinkClosed ∧
    contentPayloads (handleOutputItemDone cfg st evt).2.1 = [] := by
  obtain ⟨h1, h2, h3, h4, h5⟩ := ensureRole_flags cfg st
  simp only [handleOutputItemDone]
  refine ⟨h1, h2, ?_⟩
  rw [contentPayloads_append, h5]
  rcases evt.item with _ | item
  · simp [contentPayloads]
  · (repeat' split) <;> simp [contentPayloads, mkChunk]

theorem handleSummaryPartAdded_quiet (cfg : ChatCfg) (st : ChatState) :
    (handleSummaryPartAdded cfg st).1.thinkOpen = st.thinkOpen ∧
    (handleSummaryPartAdded cfg st).1.thinkClosed = st.thinkClosed ∧
    contentPayloads (handleSummaryPartAdded cfg st).2.1 = [] := by
  simp only [handleSummaryPartAdded]
  (repeat' split) <;> simp [contentPayloads]

theorem handleFailed_quiet (st : ChatState) (evt : SseEvent) :
    (handleFailed st evt).1.thinkOpen = st.thinkOpen ∧
    (handleFailed st evt).1.thinkClosed = st.thinkClosed ∧
    contentPayloads (handleFailed st evt).2.1 = [] := by
  simp only [handleFailed]
  (repeat' split) <;> simp [contentPayloads]

theorem stepQuiet (cfg : ChatCfg) (st : ChatState) (evt : SseEvent)
    (hr : isReasoningKind evt.type = false)
    (ht : evt.type ≠ "response.output_text.delta")
    (hc : evt.type ≠ "response.completed") :
    (processEvent cfg st evt).1.thinkOpen = st.thinkOpen ∧
    (processEvent cfg st evt).1.thinkClosed = st.thinkClosed ∧
    contentPayloads (processEvent cfg st evt).2.1 = [] := by
  obtain ⟨hu1, hu2⟩ := updateResponseId_flags st evt
  simp only [processEvent]
  rw [if_neg ht]
  by_cases h2 : evt.type = "response.output_item.done"
  · rw [if_pos h2]
    obtain ⟨a, b, c⟩ := handleOutputItemDone_quiet cfg (updateResponseId st evt) evt
    exact ⟨a.trans hu1, b.trans hu2, c⟩
  · rw [if_neg h2]
    by_cases h3 : evt.type = "response.reasoning_summary_part.added"
    · rw [if_pos h3]
      obtain ⟨a, b, c⟩ := handleSummaryPartAdded_quiet cfg (updateResponseId st evt)
      exact ⟨a.trans hu1, b.trans hu2, c⟩
    · rw [if_neg h3, if_neg (by simp [hr])]
      by_cases h4 : endsWithStr evt.type ".done" = true
      · rw [if_pos h4]
        exact ⟨hu1, hu2, by simp [contentPayloads]⟩
      · rw [if_neg h4]
        by_cases h5 : evt.type = "response.output_text.done"
        · rw [if_pos h5]
          exact ⟨hu1, hu2, by simp [contentPayloads, mkChunk]⟩
        · rw [if_neg h5]
          by_cases h6 : evt.type = "response.failed"
          · rw [if_pos h6]
            obtain ⟨a, b, c⟩ := handleFailed_quiet (updateResponseId st evt) evt
            exact ⟨a.trans hu1, b.trans hu2, c⟩
          · rw [if_neg h6, if_neg hc]
            exact ⟨hu1, hu2, by simp [contentPayloads]⟩

theorem stepTextTagged (cfg : ChatCfg) (st : ChatState) (evt : SseEvent)
    (hcompat : cfg.compat = "tagged")
    (htype : evt.type = "response.output_text.delta") :
    ((st.thinkOpen = true ∧ st.thinkClosed = false →
        (processEvent cfg st evt).1.thinkOpen = false ∧
        (processEvent cfg st evt).1.thinkClosed = true ∧
        contentPayloads (processEvent cfg st evt).2.1 =
          ["</think>", evt.delta.getD ""]) ∧
     (¬ (st.thinkOpen = true ∧ st.thinkClosed = false) →
        (processEvent cfg st evt).1.thinkOpen = st.thinkOpen ∧
        (processEvent cfg st evt).1.thinkClosed = st.thinkClosed ∧
        contentPayloads (processEvent cfg st evt).2.1 = [evt.delta.getD ""])) := by
  obtain ⟨hu1, hu2⟩ := updateResponseId_flags st evt
  obtain ⟨he1, he2, he3, he4, he5⟩ := ensureRole_flags cfg (updateResponseId st evt)
  simp only [processEvent]
  rw [if_pos htype]
  simp only [handleTextDelta]
  constructor
  · intro hB
    rw [if_pos (by exact ⟨hcompat, by rw [he1, hu1]; exact hB.1,
        by rw [he2, hu2, hB.2]; simp⟩)]
    refine ⟨rfl, rfl, ?_⟩
    rw [contentPayloads_append, contentPayloads_append, he5]
    simp [contentPayloads, mkChunk]
  · intro hNB
    rw [if_neg (by
      intro hcon
      exact hNB ⟨by rw [← hu1, ← he1]; exact hcon.2.1,
                 by rw [← hu2, ← he2]; simpa using hcon.2.2⟩)]
    refine ⟨by rw [he1, hu1], by rw [he2, hu2], ?_⟩
    rw [contentPayloads_append, contentPayloads_append, he5]
    simp [contentPayloads, mkChunk]

theorem stepReasoningTagged (cfg : ChatCfg) (st : ChatState) (evt : SseEvent)
    (hcompat : cfg.compat = "tagged")
    (hkind : isReasoningKind evt.type = true) :
    ((st.thinkOpen = false ∧ st.thinkClosed = false →
        (processEvent cfg st evt).1.thinkOpen = true ∧
        (processEvent cfg st evt).1.thinkClosed = false ∧
        ∃ mid, (mid = ([] : List String) ∨ mid = ["\n"]) ∧
          contentPayloads (processEvent cfg st evt).2.1 =
            "<think>" :: mid ++ [evt.delta.getD ""]) ∧
     (st.thinkOpen = true ∧ st.thinkClosed = false →
        (processEvent cfg st evt).1.thinkOpen = true ∧
        (processEvent cfg st evt).1.thinkClosed = false ∧
        ∃ mid, (mid = ([] : List String) ∨ mid = ["\n"]) ∧
          contentPayloads (processEvent cfg st evt).2.1 =
            mid ++ [evt.delta.getD ""]) ∧
     (st.thinkOpen = false ∧ st.thinkClosed = true →
        (processEvent cfg st evt).1.thinkOpen = false ∧
        (processEvent cfg st evt).1.thinkClosed = true ∧
        contentPayloads (processEvent cfg st evt).2.1 = [])) := by
  obtain ⟨hu1, hu2⟩ := updateResponseId_flags st evt
  obtain ⟨he1, he2, he3, he4, he5⟩ := ensureRole_flags cfg (updateResponseId st evt)
  simp only [processEvent]
  rw [if_neg (by
        intro hcon
        rw [hcon] at hkind
        exact absurd hkind (by decide)),
      if_neg (by
        intro hcon
        rw [hcon] at hkind
        exact absurd hkind (by decide)),
      if_neg (by
        intro hcon
        rw [hcon] at hkind
        exact absurd hkind (by decide)),
      if_pos hkind]
  simp only [handleReasoningDelta, hcompat]
  rw [if_neg (show ¬(("tagged" : String) = "hidden") by decide),
      if_neg (show ¬(("tagged" : String) = "r1") by decide),
      if_neg (show ¬(("tagged" : String) = "o3") by decide),
      if_neg (show ¬(("tagged" : String) = "openai") by decide),
      if_pos trivial]
  refine ⟨?_, ?_, ?_⟩
  · intro hA
    have h1 : (ensureRole cfg (updateResponseId st evt)).1.thinkOpen = false := by
      rw [he1, hu1, hA.1]
    have h2 : (ensureRole cfg (updateResponseId st evt)).1.thinkClosed = false := by
      rw [he2, hu2, hA.2]
    split
    · split
      · split
        · exact ⟨by simp, by simp [h2], ["\n"], Or.inr rfl, by
            rw [contentPayloads_append, contentPayloads_append, contentPayloads_append, he5]
            simp [contentPayloads, mkChunk]⟩
        · exact ⟨by simp, by simp [h2], [], Or.inl rfl, by
            rw [contentPayloads_append, contentPayloads_append, contentPayloads_append, he5]
            simp [contentPayloads, mkChunk]⟩
      · next hcond2 =>
          exact absurd ⟨by simp, by simp [h2]⟩ hcond2
    · next hcond =>
        exact absurd ⟨by simp [h1], by simp [h2]⟩ hcond
  · intro hB
    have h1 : (ensureRole cfg (updateResponseId st evt)).1.thinkOpen = true := by
      rw [he1, hu1, hB.1]
    have h2 : (ensureRole cfg (updateResponseId st evt)).1.thinkClosed = false := by
      rw [he2, hu2, hB.2]
    split
    · next hcond =>
        exact absurd hcond.1 (by simp [h1])
    · split
      · split
        · exact ⟨by simp [h1], by simp [h2], ["\n"], Or.inr rfl, by
            rw [contentPayloads_append, contentPayloads_append, contentPayloads_append, he5]
            simp [contentPayloads, mkChunk]⟩
        · exact ⟨by simp [h1], by simp [h2], [], Or.inl rfl, by
            rw [contentPayloads_append, contentPayloads_append, contentPayloads_append, he5]
            simp [contentPayloads, mkChunk]⟩
      · next hcond2 =>
          exact absurd ⟨by simp [h1], by simp [h2]⟩ hcond2
  · intro hC
    have h1 : (ensureRole cfg (updateResponseId st evt)).1.thinkOpen = false := by
      rw [he1, hu1, hC.1]
    have h2 : (ensureRole cfg (updateResponseId st evt)).1.thinkClosed = true := by
      rw [he2, hu2, hC.2]
    split
    · next hcond =>
        exact absurd hcond.2 (by simp [h2])
    · split
      · next hcond2 =>
          exact absurd hcond2.1 (by simp [h1])
      · refine ⟨by simp [h1], by simp [h2], ?_⟩
        rw [contentPayloads_append, he5]
        simp [contentPayloads]

theorem stepCompletedTagged (cfg : ChatCfg) (st : ChatState) (evt : SseEvent)
    (hcompat : cfg.compat = "tagged")
    (htype : evt.type = "response.completed") :
    ((st.thinkOpen = true ∧ st.thinkClosed = false →
        contentPayloads (processEvent cfg st evt).2.1 = ["</think>"]) ∧
     (¬ (st.thinkOpen = true ∧ st.thinkClosed = false) →
        contentPayloads (processEvent cfg st evt).2.1 = [])) := by
  obtain ⟨hu1, hu2⟩ := updateResponseId_flags st evt
  simp only [processEvent, htype]
  rw [if_neg (by decide), if_neg (by decide), if_neg (by decide), if_neg (by decide),
      if_neg (by decide), if_neg (by decide), if_neg (by decide)]
  simp only [ite_true]
  simp only [handleCompleted]
  constructor
  · intro hB
    rw [if_pos ⟨hcompat, by rw [hu1]; exact hB.1, by rw [hu2, hB.2]; simp⟩]
    rw [contentPayloads_append, contentPayloads_append]
    split <;> simp [contentPayloads, mkChunk]
  · intro hNB
    rw [if_neg (by
      intro hcon
      exact hNB ⟨by rw [← hu1]; exact hcon.2.1, by rw [← hu2]; simpa using hcon.2.2⟩)]
    rw [contentPayloads_append, contentPayloads_append]
    split <;> simp [contentPayloads, mkChunk]

theorem processLines_singleton (cfg : ChatCfg) (st : ChatState) (l : SseLine) :
    (processLines cfg st [l]).2 = (processLine cfg st l).2.1 := by
  simp only [processLines]
  split
  · rfl
  · simp [processLines]

theorem processLines_append_no_terminal (cfg : ChatCfg) (st : ChatState)
    (xs ys : List SseLine) (h : ∀ l ∈ xs, l.isTerminal = false) :
    processLines cfg st (xs ++ ys) =
      ((processLines cfg (processLines cfg st xs).1 ys).1,
       (processLines cfg st xs).2 ++ (processLines cfg (processLines cfg st xs).1 ys).2) := by
  induction xs generalizing st with
  | nil => simp [processLines]
  | cons l rest ih =>
    have hl := processLine_not_terminal cfg st l (h l (by simp))
    simp only [List.cons_append, List.append_eq, processLines, hl.2, if_false,
      Bool.false_eq_true]
    rw [ih _ fun x hx => h x (by simp [hx])]
    simp [List.append_assoc]

theorem quietLine_parts (l : SseLine) (h : quietLine l = true) :
    l.isReasoningDelta = false ∧ l.isTextDelta = false ∧ l.isTerminal = false := by
  have h' : (l.isReasoningDelta = false ∧ l.isTextDelta = false) ∧ l.isTerminal = false := by
    simpa [quietLine] using h
  exact ⟨h'.1.1, h'.1.2, h'.2⟩

theorem isReasoningKind_ne (t : String) (h : isReasoningKind t = true) :
    t ≠ "response.output_text.delta" ∧ t ≠ "response.completed" := by
  simp only [isReasoningKind] at h
  rcases of_decide_eq_true h with rfl | rfl | rfl | rfl <;> exact ⟨by decide, by decide⟩

theorem textDeltas_append (a b : List SseLine) :
    textDeltas (a ++ b) = textDeltas a ++ textDeltas b := by
  simp [textDeltas]

theorem textDeltas_cons_skip (l : SseLine) (rest : List SseLine)
    (h : l.isTextDelta = false) : textDeltas (l :: rest) = textDeltas rest := by
  cases l with
  | event e =>
    have he : e.type ≠ "response.output_text.delta" := by
      simpa [SseLine.isTextDelta] using h
    simp [textDeltas, List.filterMap_cons, he]
  | notData s => simp [textDeltas, List.filterMap_cons]
  | blank => simp [textDeltas, List.filterMap_cons]
  | doneSentinel => simp [textDeltas, List.filterMap_cons]
  | malformed => simp [textDeltas, List.filterMap_cons]

theorem textDeltas_cons_text (e : SseEvent) (rest : List SseLine)
    (h : e.type = "response.output_text.delta") :
    textDeltas (SseLine.event e :: rest) = e.delta.getD "" :: textDeltas rest := by
  simp [textDeltas, List.filterMap_cons, h]

theorem tagFree_getD (d : Option String)
    (h1 : d ≠ some "<think>") (h2 : d ≠ some "</think>") :
    d.getD "" ≠ "<think>" ∧ d.getD "" ≠ "</think>" := by
  cases d with
  | none => exact ⟨by decide, by decide⟩
  | some s =>
    exact ⟨fun hc => h1 (by rw [Option.getD_some] at hc; rw [hc]),
           fun hc => h2 (by rw [Option.getD_some] at hc; rw [hc])⟩

theorem tags_not_mem_textDeltas (ls : List SseLine)
    (h : ∀ l ∈ ls, tagFreeLine l = true) :
    "<think>" ∉ textDeltas ls ∧ "</think>" ∉ textDeltas ls := by
  induction ls with
  | nil => simp [textDeltas]
  | cons l rest ih =>
    obtain ⟨ih1, ih2⟩ := ih fun x hx => h x (by simp [hx])
    have hl := h l (by simp)
    by_cases ht : l.isTextDelta = true
    · cases l with
      | event e =>
        have he : e.type = "response.output_text.delta" := by
          simpa [SseLine.isTextDelta] using ht
        have hfree := of_decide_eq_true (by simpa [tagFreeLine] using hl)
        obtain ⟨hd1, hd2⟩ := tagFree_getD e.delta hfree.1 hfree.2
        rw [textDeltas_cons_text e rest he]
        constructor
        · simp only [List.mem_cons, not_or]
          exact ⟨fun hc => hd1 hc.symm, ih1⟩
        · simp only [List.mem_cons, not_or]
          exact ⟨fun hc => hd2 hc.symm, ih2⟩
      | notData s => simp [SseLine.isTextDelta] at ht
      | blank => simp [SseLine.isTextDelta] at ht
      | doneSentinel => simp [SseLine.isTextDelta] at ht
      | malformed => simp [SseLine.isTextDelta] at ht
    · rw [textDeltas_cons_skip l rest (by simpa using ht)]
      exact ⟨ih1, ih2⟩

theorem taggedQuietLines (cfg : ChatCfg) (st : ChatState) (ls : List SseLine)
    (h : ∀ l ∈ ls, quietLine l = true) :
    (processLines cfg st ls).1.thinkOpen = st.thinkOpen ∧
    (processLines cfg st ls).1.thinkClosed = st.thinkClosed ∧
    contentPayloads (processLines cfg st ls).2 = [] := by
  induction ls generalizing st with
  | nil => simp [processLines, contentPayloads]
  | cons l rest ih =>
    obtain ⟨hr, ht, hterm⟩ := quietLine_parts l (h l (by simp))
    have hnb := processLine_not_terminal cfg st l hterm
    have hstep : (processLine cfg st l).1.thinkOpen = st.thinkOpen ∧
        (processLine cfg st l).1.thinkClosed = st.thinkClosed ∧
        contentPayloads (processLine cfg st l).2.1 = [] := by
      cases l with
      | notData s => simp [processLine, contentPayloads]
      | blank => simp [processLine, contentPayloads]
      | doneSentinel => simp [SseLine.isTerminal] at hterm
      | malformed => simp [processLine, contentPayloads]
      | event e =>
        have h1 : isReasoningKind e.type = false := by
          simpa [SseLine.isReasoningDelta] using hr
        have h2 : e.type ≠ "response.output_text.delta" := by
          simpa [SseLine.isTextDelta] using ht
        have h3 : e.type ≠ "response.completed" := by
          simpa [SseLine.isTerminal] using hterm
        simpa [processLine] using stepQuiet cfg st e h1 h2 h3
    obtain ⟨ih1, ih2, ih3⟩ := ih (processLine cfg st l).1 fun x hx => h x (by simp [hx])
    simp only [processLines, hnb.2, if_false, Bool.false_eq_true]
    exact ⟨ih1.trans hstep.1, ih2.trans hstep.2.1,
      by rw [contentPayloads_append, hstep.2.2, ih3]; rfl⟩

theorem taggedC (cfg : ChatCfg) (ls : List SseLine) (st : ChatState)
    (hcompat : cfg.compat = "tagged")
    (hls : ∀ l ∈ ls, l.isTerminal = false ∧ tagFreeLine l = true)
    (hst1 : st.thinkOpen = false) (hst2 : st.thinkClosed = true) :
    (processLines cfg st ls).1.thinkOpen = false ∧
    (processLines cfg st ls).1.thinkClosed = true ∧
    contentPayloads (processLines cfg st ls).2 = textDeltas ls := by
  induction ls generalizing st with
  | nil => simp [processLines, contentPayloads, textDeltas, hst1, hst2]
  | cons l rest ih =>
    have hterm := (hls l (by simp)).1
    have hnb := processLine_not_terminal cfg st l hterm
    have hstep : (processLine cfg st l).1.thinkOpen = false ∧
        (processLine cfg st l).1.thinkClosed = true ∧
        contentPayloads (processLine cfg st l).2.1 = textDeltas [l] := by
      cases l with
      | notData s => simp [processLine, contentPayloads, textDeltas, hst1, hst2]
      | blank => simp [processLine, contentPayloads, textDeltas, hst1, hst2]
      | doneSentinel => simp [SseLine.isTerminal] at hterm
      | malformed => simp [processLine, contentPayloads, textDeltas, hst1, hst2]
      | event e =>
        have hnc : e.type ≠ "response.completed" := by
          simpa [SseLine.isTerminal] using hterm
        by_cases he : e.type = "response.output_text.delta"
        · have hnB : ¬ (st.thinkOpen = true ∧ st.thinkClosed = false) := by
            rw [hst1, hst2]; simp
          obtain ⟨a, b, c⟩ := (stepTextTagged cfg st e hcompat he).2 hnB
          refine ⟨by simpa [processLine, hst1] using a,
                  by simpa [processLine, hst2] using b, ?_⟩
          rw [textDeltas_cons_text e [] he]
          simpa [processLine, textDeltas] using c
        · by_cases hr : isReasoningKind e.type = true
          · obtain ⟨a, b, c⟩ :=
              (stepReasoningTagged cfg st e hcompat hr).2.2 ⟨hst1, hst2⟩
            refine ⟨by simpa [processLine] using a,
                    by simpa [processLine] using b, ?_⟩
            rw [textDeltas_cons_skip (SseLine.event e) []
                  (by simp [SseLine.isTextDelta, he])]
            simpa [processLine, textDeltas] using c
          · obtain ⟨a, b, c⟩ := stepQuiet cfg st e (by simpa using hr) he hnc
            refine ⟨by rw [show (processLine cfg st (SseLine.event e)).1
                      = (processEvent cfg st e).1 from rfl, a, hst1],
                    by rw [show (processLine cfg st (SseLine.event e)).1
                      = (processEvent cfg st e).1 from rfl, b, hst2], ?_⟩
            rw [textDeltas_cons_skip (SseLine.event e) []
                  (by simp [SseLine.isTextDelta, he])]
            simpa [processLine, textDeltas] using c
    obtain ⟨ih1, ih2, ih3⟩ :=
      ih (processLine cfg st l).1 (fun x hx => hls x (by simp [hx])) hstep.1 hstep.2.1
    simp only [processLines, hnb.2, if_false, Bool.false_eq_true]
    refine ⟨ih1, ih2, ?_⟩
    rw [contentPayloads_append, hstep.2.2, ih3,
        show (l :: rest) = [l] ++ rest from rfl, textDeltas_append]

theorem taggedBC (cfg : ChatCfg) (ls : List SseLine) (st : ChatState)
    (hcompat : cfg.compat = "tagged")
    (hls : ∀ l ∈ ls, l.isTerminal = false ∧ tagFreeLine l = true)
    (hst1 : st.thinkOpen = true) (hst2 : st.thinkClosed = false) :
    ∃ inner, noTags inner ∧
      (((processLines cfg st ls).1.thinkOpen = true ∧
        (processLines cfg st ls).1.thinkClosed = false ∧
        contentPayloads (processLines cfg st ls).2 = inner ∧ textDeltas ls = []) ∨
       ((processLines cfg st ls).1.thinkOpen = false ∧
        (processLines cfg st ls).1.thinkClosed = true ∧
        contentPayloads (processLines cfg st ls).2 =
          inner ++ "</think>" :: textDeltas ls)) := by
  induction ls generalizing st with
  | nil =>
    exact ⟨[], by simp [noTags],
      Or.inl (by simp [processLines, contentPayloads, textDeltas, hst1, hst2])⟩
  | cons l rest ih =>
    have hterm := (hls l (by simp)).1
    have hnb := processLine_not_terminal cfg st l hterm
    by_cases htd : l.isTextDelta = true
    · cases l with
      | notData s => simp [SseLine.isTextDelta] at htd
      | blank => simp [SseLine.isTextDelta] at htd
      | doneSentinel => simp [SseLine.isTextDelta] at htd
      | malformed => simp [SseLine.isTextDelta] at htd
      | event e =>
        have he : e.type = "response.output_text.delta" := by
          simpa [SseLine.isTextDelta] using htd
        obtain ⟨a, b, c⟩ := (stepTextTagged cfg st e hcompat he).1 ⟨hst1, hst2⟩
        have hstA : (processLine cfg st (SseLine.event e)).1.thinkOpen = false := by
          simpa [processLine] using a
        have hstB : (processLine cfg st (SseLine.event e)).1.thinkClosed = true := by
          simpa [processLine] using b
        obtain ⟨r1, r2, r3⟩ := taggedC cfg rest (processLine cfg st (SseLine.event e)).1
          hcompat (fun x hx => hls x (by simp [hx])) hstA hstB
        refine ⟨[], by simp [noTags], Or.inr ?_⟩
        simp only [processLines, hnb.2, if_false, Bool.false_eq_true]
        refine ⟨r1, r2, ?_⟩
        rw [contentPayloads_append, r3, textDeltas_cons_text e rest he,
            show contentPayloads (processLine cfg st (SseLine.event e)).2.1 =
              ["</think>", e.delta.getD ""] from by simpa [processLine] using c]
        rfl
    · by_cases hrd : l.isReasoningDelta = true
      · cases l with
        | notData s => simp [SseLine.isReasoningDelta] at hrd
        | blank => simp [SseLine.isReasoningDelta] at hrd
        | doneSentinel => simp [SseLine.isReasoningDelta] at hrd
        | malformed => simp [SseLine.isReasoningDelta] at hrd
        | event e =>
          have hr : isReasoningKind e.type = true := by
            simpa [SseLine.isReasoningDelta] using hrd
          obtain ⟨a, b, mid, hmid, c⟩ :=
            (stepReasoningTagged cfg st e hcompat hr).2.1 ⟨hst1, hst2⟩
          have hstA : (processLine cfg st (SseLine.event e)).1.thinkOpen = true := by
            simpa [processLine] using a
          have hstB : (processLine cfg st (SseLine.event e)).1.thinkClosed = false := by
            simpa [processLine] using b
          obtain ⟨inner, hn, hcase⟩ := ih (processLine cfg st (SseLine.event e)).1
            (fun x hx => hls x (by simp [hx])) hstA hstB
          have hfree := of_decide_eq_true
            (by simpa [tagFreeLine] using (hls (SseLine.event e) (by simp)).2)
          obtain ⟨hd1, hd2⟩ := tagFree_getD e.delta hfree.1 hfree.2
          have hmid1 : "<think>" ∉ mid ∧ "</think>" ∉ mid := by
            rcases hmid with rfl | rfl
            · exact ⟨by simp, by simp⟩
            · exact ⟨by decide, by decide⟩
          have hc' : contentPayloads (processLine cfg st (SseLine.event e)).2.1 =
              mid ++ [e.delta.getD ""] := by simpa [processLine] using c
          refine ⟨mid ++ e.delta.getD "" :: inner, ⟨?_, ?_⟩, ?_⟩
          · intro hc
            rcases List.mem_append.mp hc with hc | hc
            · exact hmid1.1 hc
            · rcases List.mem_cons.mp hc with hc | hc
              · exact hd1 hc.symm
              · exact hn.1 hc
          · intro hc
            rcases List.mem_append.mp hc with hc | hc
            · exact hmid1.2 hc
            · rcases List.mem_cons.mp hc with hc | hc
              · exact hd2 hc.symm
              · exact hn.2 hc
          · simp only [processLines, hnb.2, if_false, Bool.false_eq_true]
            rw [textDeltas_cons_skip _ _ (by simpa using htd)]
            rcases hcase with ⟨p, q, r, d0⟩ | ⟨p, q, r⟩
            · refine Or.inl ⟨p, q, ?_, d0⟩
              rw [contentPayloads_append, hc', r]
              simp
            · refine Or.inr ⟨p, q, ?_⟩
              rw [contentPayloads_append, hc', r]
              simp
      · have hstep : (processLine cfg st l).1.thinkOpen = st.thinkOpen ∧
            (processLine cfg st l).1.thinkClosed = st.thinkClosed ∧
            contentPayloads (processLine cfg st l).2.1 = [] := by
          cases l with
          | notData s => simp [processLine, contentPayloads]
          | blank => simp [processLine, contentPayloads]
          | doneSentinel => simp [SseLine.isTerminal] at hterm
          | malformed => simp [processLine, contentPayloads]
          | event e =>
            have h1 : isReasoningKind e.type = false := by
              simpa [SseLine.isReasoningDelta] using hrd
            have h2 : e.type ≠ "response.output_text.delta" := by
              simpa [SseLine.isTextDelta] using htd
            have h3 : e.type ≠ "response.completed" := by
              simpa [SseLine.isTerminal] using hterm
            simpa [processLine] using stepQuiet cfg st e h1 h2 h3
        obtain ⟨inner, hn, hcase⟩ := ih (processLine cfg st l).1
          (fun x hx => hls x (by simp [hx])) (hstep.1.trans hst1) (hstep.2.1.trans hst2)
        refine ⟨inner, hn, ?_⟩
        simp only [processLines, hnb.2, if_false, Bool.false_eq_true]
        rw [textDeltas_cons_skip _ _ (by simpa using htd)]
        rcases hcase with ⟨p, q, r, d0⟩ | ⟨p, q, r⟩
        · exact Or.inl ⟨p, q, by rw [contentPayloads_append, hstep.2.2, r]; rfl, d0⟩
        · exact Or.inr ⟨p, q, by rw [contentPayloads_append, hstep.2.2, r]; rfl⟩

theorem noTags_build (mid : List String) (d : String) (inner : List String)
    (hmid : mid = [] ∨ mid = ["\n"]) (hd1 : d ≠ "<think>") (hd2 : d ≠ "</think>")
    (hn : noTags inner) : noTags (mid ++ d :: inner) := by
  have hmidT : "<think>" ∉ mid ∧ "</think>" ∉ mid := by
    rcases hmid with rfl | rfl
    · exact ⟨by simp, by simp⟩
    · exact ⟨by decide, by decide⟩
  constructor
  · intro hc
    rcases List.mem_append.mp hc with hc | hc
    · exact hmidT.1 hc
    · rcases List.mem_cons.mp hc with hc | hc
      · exact hd1 hc.symm
      · exact hn.1 hc
  · intro hc
    rcases List.mem_append.mp hc with hc | hc
    · exact hmidT.2 hc
    · rcases List.mem_cons.mp hc with hc | hc
      · exact hd2 hc.symm
      · exact hn.2 hc

theorem processLines_cons_no_break (cfg : ChatCfg) (st : ChatState) (l : SseLine)
    (rest : List SseLine) (h : (processLine cfg st l).2.2 = false) :
    processLines cfg st (l :: rest) =
      ((processLines cfg (processLine cfg st l).1 rest).1,
       (processLine cfg st l).2.1 ++ (processLines cfg (processLine cfg st l).1 rest).2) := by
  simp only [processLines, h, if_false, Bool.false_eq_true]

theorem taggedPipeline (cfg : ChatCfg) (hcompat : cfg.compat = "tagged")
    (b1 : List SseLine) (re : SseEvent) (b2 : List SseLine) (ce : SseEvent)
    (hq : ∀ l ∈ b1, quietLine l = true)
    (hre : isReasoningKind re.type = true)
    (href1 : re.delta ≠ some "<think>") (href2 : re.delta ≠ some "</think>")
    (hb2 : ∀ l ∈ b2, l.isTerminal = false ∧ tagFreeLine l = true)
    (hce : ce.type = "response.completed") :
    ∃ inner, noTags inner ∧
      contentPayloads (processLines cfg {}
          (b1 ++ (SseLine.event re :: (b2 ++ [SseLine.event ce])))).2 =
        "<think>" :: inner ++ "</think>" :: textDeltas b2 := by
  have hq' : ∀ l ∈ b1, l.isTerminal = false :=
    fun l hl => (quietLine_parts l (hq l hl)).2.2
  obtain ⟨q1, q2, q3⟩ := taggedQuietLines cfg {} b1 hq
  have hterm : (SseLine.event re).isTerminal = false := by
    simp [SseLine.isTerminal, (isReasoningKind_ne re.type hre).2]
  have hnbre := processLine_not_terminal cfg (processLines cfg {} b1).1
    (SseLine.event re) hterm
  obtain ⟨a1, a2, mid1, hmid1, c1⟩ :=
    (stepReasoningTagged cfg (processLines cfg {} b1).1 re hcompat hre).1
      ⟨q1.trans rfl, q2.trans rfl⟩
  have hst2o : (processLine cfg (processLines cfg {} b1).1
      (SseLine.event re)).1.thinkOpen = true := by simpa [processLine] using a1
  have hst2c : (processLine cfg (processLines cfg {} b1).1
      (SseLine.event re)).1.thinkClosed = false := by simpa [processLine] using a2
  obtain ⟨inner2, hn2, hcase⟩ := taggedBC cfg b2
    (processLine cfg (processLines cfg {} b1).1 (SseLine.event re)).1 hcompat hb2
    hst2o hst2c
  have hd := tagFree_getD re.delta href1 href2
  refine ⟨mid1 ++ re.delta.getD "" :: inner2,
    noTags_build mid1 _ inner2 hmid1 hd.1 hd.2 hn2, ?_⟩
  rw [processLines_append_no_terminal cfg {} b1 _ hq']
  dsimp only
  rw [contentPayloads_append, q3, List.nil_append,
      processLines_cons_no_break cfg _ _ _ hnbre.2]
  dsimp only
  rw [contentPayloads_append,
      show contentPayloads (processLine cfg (processLines cfg {} b1).1
          (SseLine.event re)).2.1 = "<think>" :: mid1 ++ [re.delta.getD ""] from by
        simpa [processLine] using c1,
      processLines_append_no_terminal cfg _ b2 _ (fun l hl => (hb2 l hl).1)]
  dsimp only
  rw [contentPayloads_append, processLines_singleton]
  rcases hcase with ⟨p, q, r, d0⟩ | ⟨p, q, r⟩
  · rw [r, d0,
        show contentPayloads (processLine cfg (processLines cfg (processLine cfg
            (processLines cfg {} b1).1 (SseLine.event re)).1 b2).1
            (SseLine.event ce)).2.1 = ["</think>"] from by
          simpa [processLine] using
            (stepCompletedTagged cfg _ ce hcompat hce).1 ⟨p, q⟩]
    simp
  · rw [r,
        show contentPayloads (processLine cfg (processLines cfg (processLine cfg
            (processLines cfg {} b1).1 (SseLine.event re)).1 b2).1
            (SseLine.event ce)).2.1 = ([] : List String) from by
          simpa [processLine] using
            (stepCompletedTagged cfg (processLines cfg (processLine cfg
                (processLines cfg {} b1).1 (SseLine.event re)).1 b2).1
                ce hcompat hce).2
              (by intro hc; rw [hc.1] at p; simp at p)]
    simp

/-- C4 (amended): in tagged mode, for a stream consisting of a quiet
prefix, a first reasoning delta whose payload is not itself a think tag,
tag-free non-terminal lines, and a closing `response.completed` event, the
emitted content deltas are exactly `<think>`, an inner block containing
neither tag, `</think>`, and then the visible text deltas: `<think>` and
`</think>` each occur exactly once and `</think>` precedes every forwarded
text payload. (The unqualified claim is refuted by `c4_counterexample`:
the literal upstream `[DONE]` sentinel path never closes the tag.) -/
theorem c4_amended_tagged_think_block
    (model : String) (created : Nat)
    (b1 : List SseLine) (re : SseEvent) (b2 : List SseLine) (ce : SseEvent)
    (hq : ∀ l ∈ b1, quietLine l = true)
    (hre : isReasoningKind re.type = true)
    (href1 : re.delta ≠ some "<think>") (href2 : re.delta ≠ some "</think>")
    (hb2 : ∀ l ∈ b2, l.isTerminal = false ∧ tagFreeLine l = true)
    (hce : ce.type = "response.completed") :
    ∃ inner, noTags inner ∧
      contentPayloads (translateChat model created "tagged"
          [b1 ++ (SseLine.event re :: (b2 ++ [SseLine.event ce]))]) =
        "<think>" :: inner ++ "</think>" :: textDeltas b2 ∧
      (contentPayloads (translateChat model created "tagged"
          [b1 ++ (SseLine.event re :: (b2 ++ [SseLine.event ce]))])).count "<think>" = 1 ∧
      (contentPayloads (translateChat model created "tagged"
          [b1 ++ (SseLine.event re :: (b2 ++ [SseLine.event ce]))])).count "</think>" = 1 := by
  obtain ⟨inner, hn, hshape⟩ :=
    taggedPipeline ⟨model, created, normalizeCompatMode "tagged"⟩
      (show normalizeCompatMode "tagged" = "tagged" by decide)
      b1 re b2 ce hq hre href1 href2 hb2 hce
  have hsh : contentPayloads (translateChat model created "tagged"
      [b1 ++ (SseLine.event re :: (b2 ++ [SseLine.event ce]))]) =
      "<think>" :: inner ++ "</think>" :: textDeltas b2 := by
    rw [show translateChat model created "tagged"
          [b1 ++ (SseLine.event re :: (b2 ++ [SseLine.event ce]))]
        = (processLines (⟨model, created, normalizeCompatMode "tagged"⟩ : ChatCfg) {}
            (b1 ++ (SseLine.event re :: (b2 ++ [SseLine.event ce])))).2 from by
      simp [translateChat, chatLoop]]
    exact hshape
  obtain ⟨ht1, ht2⟩ := tags_not_mem_textDeltas b2 (fun l hl => (hb2 l hl).2)
  refine ⟨inner, hn, hsh, ?_, ?_⟩
  · rw [hsh, show ("<think>" :: inner ++ "</think>" :: textDeltas b2)
        = ["<think>"] ++ inner ++ ["</think>"] ++ textDeltas b2 by simp]
    rw [List.count_append, List.count_append, List.count_append,
        List.count_eq_zero.mpr hn.1, List.count_eq_zero.mpr ht1]
    decide
  · rw [hsh, show ("<think>" :: inner ++ "</think>" :: textDeltas b2)
        = ["<think>"] ++ inner ++ ["</think>"] ++ textDeltas b2 by simp]
    rw [List.count_append, List.count_append, List.count_append,
        List.count_eq_zero.mpr hn.2, List.count_eq_zero.mpr ht2]
    decide

theorem c4_amended_tagged_think_block_witness :
    ∃ inner, noTags inner ∧
      contentPayloads (translateChat "m" 0 "tagged"
          [([] : List SseLine) ++ (SseLine.event exReasoningDelta ::
            ([SseLine.event exTextDelta] ++ [SseLine.event exCompleted]))]) =
        "<think>" :: inner ++ "</think>" :: textDeltas [SseLine.event exTextDelta] ∧
      (contentPayloads (translateChat "m" 0 "tagged"
          [([] : List SseLine) ++ (SseLine.event exReasoningDelta ::
            ([SseLine.event exTextDelta] ++ [SseLine.event exCompleted]))])).count
        "<think>" = 1 ∧
      (contentPayloads (translateChat "m" 0 "tagged"
          [([] : List SseLine) ++ (SseLine.event exReasoningDelta ::
            ([SseLine.event exTextDelta] ++ [SseLine.event exCompleted]))])).count
        "</think>" = 1 :=
  c4_amended_tagged_think_block "m" 0 [] exReasoningDelta [SseLine.event exTextDelta]
    exCompleted (by simp) (by decide) (by decide) (by decide)
    (by
      intro l hl
      rw [List.mem_singleton] at hl
      subst hl
      exact ⟨by decide, by decide⟩)
    (by decide)

end Codex
